import Mathlib

/-!
A shallow embedding of the oauth2 helper (`main.go`).

The package is a thin wrapper around three library facilities of Go:
`net/url` (parsing the authorize URL, building and encoding `url.Values`),
`net/http` (one POST) and `encoding/json` (decoding the response).

* Go strings are byte sequences: `GoString := List (Fin 256)`.
* `url.Values`, `Values.Set`, `Values.Encode`, `url.QueryEscape`,
  `url.QueryUnescape`, `url.ParseQuery`, `strings.Join` and `strings.Cut` are
  embedded as executable functions.
* The parts of the libraries that talk to the outside world or that are far
  larger than the program itself are parameters, collected in `Env`:
  `url.Parse`, `(*http.Client).Do` and the syntax layer of `encoding/json`.
  The decoding of a parsed JSON value into the two Go structs is embedded.
* A Go function that can panic returns an `Outcome`; the requests handed to the
  HTTP client are recorded in `Run.sent`.
-/

namespace Oauth2

/-! ## Bytes and strings -/

abbrev Byte := Fin 256

abbrev GoString := List Byte

/-- The byte of an ASCII character literal such as `'a'` in Go source. -/
def ch (c : Char) : Byte := Fin.ofNat c.toNat

/-- The bytes (UTF-8) of a Go string literal. -/
def str (s : String) : GoString :=
  s.toList.flatMap fun c => (String.utf8EncodeChar c).map fun b => Fin.ofNat b.toNat

/-- Error values (`error` interface values) that occur in the program. -/
inductive GoError where
  /-- A `url.EscapeError`: the offending escape sequence. -/
  | escape (s : GoString)
  /-- `fmt.Errorf("invalid semicolon separator in query")` of `url.ParseQuery`. -/
  | semicolon
  /-- An error produced inside `url.Parse`, `(*http.Client).Do` or `ioutil.ReadAll`. -/
  | lib (msg : GoString)
  /-- The result of `errors.New(msg)` or of `fmt.Errorf` without `%w`. -/
  | errorString (msg : GoString)
  /-- A `*json.SyntaxError`. -/
  | jsonSyntax
  /-- A `*json.UnmarshalTypeError`: the JSON value description and the Go field. -/
  | jsonUnmarshalType (value : GoString) (field : GoString)
  deriving DecidableEq, Repr

/-- Go `strings.Join(elems, sep)`. -/
def Join : List GoString → GoString → GoString
  | [], _ => []
  | [e], _ => e
  | e :: f :: rest, sep => e ++ sep ++ Join (f :: rest) sep

/-- Go `strings.Cut(s, sep)` for a one-byte separator: text before the first
`sep`, text after it, and whether `sep` was found. -/
def Cut (s : GoString) (sep : Byte) : GoString × GoString × Bool :=
  match s with
  | [] => ([], [], false)
  | c :: rest =>
    if c = sep then ([], rest, true)
    else
      let r := Cut rest sep
      (c :: r.1, r.2.1, r.2.2)

/-! ## `net/url`: escaping in mode `encodeQueryComponent` -/

/-- Go `shouldEscape(c, encodeQueryComponent)`: unreserved characters are kept,
reserved ones and everything else are escaped. -/
def shouldEscape (c : Byte) : Bool :=
  if (ch 'a' ≤ c && c ≤ ch 'z') || (ch 'A' ≤ c && c ≤ ch 'Z') || (ch '0' ≤ c && c ≤ ch '9') then
    false
  else if c = ch '-' || c = ch '_' || c = ch '.' || c = ch '~' then
    false
  else
    true

/-- The table lookup `upperhex[i]` with `upperhex = "0123456789ABCDEF"`. -/
def upperhex (i : Byte) : Byte := (str "0123456789ABCDEF").getD i.val 0

/-- What `escape` writes for one input byte. -/
def escapeByte (c : Byte) : GoString :=
  if c = ch ' ' then [ch '+']
  else if shouldEscape c then [ch '%', upperhex (c >>> 4), upperhex (c &&& 15)]
  else [c]

/-- Go `url.QueryEscape(s)` (`escape(s, encodeQueryComponent)`). -/
def QueryEscape (s : GoString) : GoString := s.flatMap escapeByte

/-- Go `ishex`. -/
def ishex (c : Byte) : Bool :=
  (ch '0' ≤ c && c ≤ ch '9') || (ch 'a' ≤ c && c ≤ ch 'f') || (ch 'A' ≤ c && c ≤ ch 'F')

/-- Go `unhex`, in byte arithmetic. -/
def unhex (c : Byte) : Byte :=
  if ch '0' ≤ c && c ≤ ch '9' then c - ch '0'
  else if ch 'a' ≤ c && c ≤ ch 'f' then c - ch 'a' + 10
  else if ch 'A' ≤ c && c ≤ ch 'F' then c - ch 'A' + 10
  else 0

/-- Go `url.QueryUnescape(s)` (`unescape(s, encodeQueryComponent)`): the first
malformed `%` sequence is reported, otherwise `%XX` becomes the byte and `+`
becomes a space. -/
def QueryUnescape : GoString → Except GoError GoString
  | [] => .ok []
  | c :: rest =>
    if c = ch '%' then
      match rest with
      | a :: b :: rest2 =>
        if ishex a && ishex b then
          (QueryUnescape rest2).map fun t => (unhex a <<< 4 ||| unhex b) :: t
        else .error (.escape ((c :: rest).take 3))
      | _ => .error (.escape ((c :: rest).take 3))
    else if c = ch '+' then (QueryUnescape rest).map fun t => ch ' ' :: t
    else (QueryUnescape rest).map fun t => c :: t

/-! ## `net/url`: `Values` -/

/-- Go `url.Values` (`map[string][]string`) as an association list in which
every key occurs once. -/
abbrev Values := List (GoString × List GoString)

namespace Values

/-- The map lookup `v[key]` (the nil slice when the key is absent). -/
def index : Values → GoString → List GoString
  | [], _ => []
  | (k, vs) :: rest, key => if k = key then vs else index rest key

/-- Go `v.Set(key, value)`: `v[key] = []string{value}`. -/
def Set : Values → GoString → GoString → Values
  | [], key, value => [(key, [value])]
  | (k, vs) :: rest, key, value =>
    if k = key then (k, [value]) :: rest else (k, vs) :: Set rest key value

/-- The statement `m[key] = append(m[key], value)`. -/
def add : Values → GoString → GoString → Values
  | [], key, value => [(key, [value])]
  | (k, vs) :: rest, key, value =>
    if k = key then (k, vs ++ [value]) :: rest else (k, vs) :: add rest key value

end Values

/-- Go string comparison `a < b` (bytewise lexicographic). -/
def strLess : GoString → GoString → Bool
  | [], [] => false
  | [], _ :: _ => true
  | _ :: _, [] => false
  | a :: as, b :: bs => if a < b then true else if b < a then false else strLess as bs

/-- Insertion of a key into a sorted list of keys. -/
def insertSorted (k : GoString) : List GoString → List GoString
  | [] => [k]
  | x :: xs => if strLess k x then k :: x :: xs else x :: insertSorted k xs

/-- Go `slices.Sort(keys)` on strings. -/
def sortStrings : List GoString → List GoString
  | [] => []
  | k :: ks => insertSorted k (sortStrings ks)

/-- Go `v.Encode()`: keys in sorted order, every value as `key=value`, joined by `&`. -/
def Values.Encode (v : Values) : GoString :=
  if v.length = 0 then []
  else
    let keys := sortStrings (v.map Prod.fst)
    keys.foldl (fun buf k =>
      let vs := Values.index v k
      let keyEscaped := QueryEscape k
      vs.foldl (fun buf x =>
        let buf := if buf.length > 0 then buf ++ [ch '&'] else buf
        buf ++ keyEscaped ++ [ch '='] ++ QueryEscape x) buf) []

/-- The loop of Go `parseQuery(m, query)` (Go 1.17 and later, where a pair that
contains `;` is rejected). Every iteration removes at least one byte of
`query`, so `query.length` iterations always suffice; that bound is the first
argument. -/
def parseQueryLoop : Nat → Values → Option GoError → GoString → Values × Option GoError
  | 0, m, err, _ => (m, err)
  | fuel + 1, m, err, query =>
    if query = [] then (m, err)
    else
      let c := Cut query (ch '&')
      let key := c.1
      let query := c.2.1
      if ch ';' ∈ key then parseQueryLoop fuel m (some .semicolon) query
      else if key = [] then parseQueryLoop fuel m err query
      else
        let kv := Cut key (ch '=')
        match QueryUnescape kv.1 with
        | .error err1 => parseQueryLoop fuel m (if err = none then some err1 else err) query
        | .ok key =>
          match QueryUnescape kv.2.1 with
          | .error err1 => parseQueryLoop fuel m (if err = none then some err1 else err) query
          | .ok value => parseQueryLoop fuel (Values.add m key value) err query

/-- Go `url.ParseQuery(query)`: the values found and the first error. -/
def ParseQuery (query : GoString) : Values × Option GoError :=
  parseQueryLoop query.length [] none query

/-! ## `net/url`: `URL` -/

/-- The `*url.URL` that `url.Parse` returns, as far as the program uses it.
`front` is what `String` writes before the query (scheme, opaque part or
authority, escaped path) and `frag` is `EscapedFragment()`, empty exactly when
`Fragment` is empty; the program reads and writes only `RawQuery`. -/
structure URL where
  front : GoString
  ForceQuery : Bool
  RawQuery : GoString
  frag : GoString
  deriving DecidableEq, Repr

/-- Go `u.Query()`: `ParseQuery(u.RawQuery)` with the error dropped. -/
def URL.Query (u : URL) : Values := (ParseQuery u.RawQuery).1

/-- Go `u.String()`: the front part, then `?` and the raw query when
`ForceQuery` is set or the query is not empty, then `#` and the fragment when
there is one. -/
def URL.String (u : URL) : GoString :=
  u.front ++ (if u.ForceQuery || u.RawQuery ≠ [] then ch '?' :: u.RawQuery else [])
    ++ (if u.frag ≠ [] then ch '#' :: u.frag else [])

/-- The `RawQuery` that `url.Parse` reads off a URL string it accepts: the
fragment is cut at the first `#`; a lone trailing `?` sets `ForceQuery` and
leaves the query empty; otherwise the query is what follows the first `?`. -/
def rawQueryOf (rawURL : GoString) : GoString :=
  let u := (Cut rawURL (ch '#')).1
  if u.getLast? = some (ch '?') && u.count (ch '?') = 1 then []
  else (Cut u (ch '?')).2.1

/-! ## `net/http` and `encoding/json` -/

/-- The fields of `*http.Request` that the program sets. -/
structure Request where
  Method : GoString
  URL : URL
  Header : Values
  Body : GoString
  deriving DecidableEq, Repr

/-- The fields of `*http.Response` that the program reads; `Body` is the result
of `ioutil.ReadAll(response.Body)`. -/
structure Response where
  StatusCode : Int
  Body : Except GoError GoString

/-- A syntactically valid JSON text, as the decoder sees it: strings and object
keys are unquoted, numbers keep their literal. -/
inductive JSON where
  | null
  | bool (b : Bool)
  | number (lit : GoString)
  | string (s : GoString)
  | array (elems : List JSON)
  | object (members : List (GoString × JSON))

/-- The library functions the program calls that are not embedded: `url.Parse`,
`(&http.Client{}).Do` and the syntax check and scan of `json.Unmarshal`
(`none` is a `*json.SyntaxError`). -/
structure Env where
  urlParse : GoString → Except GoError URL
  clientDo : Request → Except GoError Response
  jsonParse : GoString → Option JSON

/-- The result of a Go call that may panic. -/
inductive Outcome (α : Type) where
  | ret (a : α)
  | panic (msg : GoString)

/-- A call together with the requests it handed to the HTTP client. -/
structure Run (α : Type) where
  sent : List Request
  out : Outcome α

/-- Go `http.NewRequest(method, url, body)` for a valid method: the request, or
`nil` and the error of `url.Parse`. -/
def NewRequest (env : Env) (method url body : GoString) : Option Request × Option GoError :=
  match env.urlParse url with
  | .error err => (none, some err)
  | .ok u => (some { Method := method, URL := u, Header := [], Body := body }, none)

/-- The digit loop of `strconv.ParseUint(s, 10, 64)`, with the value kept
unbounded; the range is checked in `ParseInt`. -/
def parseDigits : GoString → Nat → Option Nat
  | [], acc => some acc
  | c :: rest, acc =>
    if ch '0' ≤ c && c ≤ ch '9' then parseDigits rest (acc * 10 + (c - ch '0').val) else none

/-- Go `strconv.ParseInt(s, 10, 64)`; `none` is a syntax or range error. -/
def ParseInt (s : GoString) : Option Int :=
  match s with
  | [] => none
  | c :: rest =>
    let neg := decide (c = ch '-')
    let digits := if c = ch '+' ∨ c = ch '-' then rest else s
    if digits = [] then none
    else
      match parseDigits digits 0 with
      | none => none
      | some un =>
        if !neg && un ≥ 2 ^ 63 then none
        else if neg && un > 2 ^ 63 then none
        else some (if neg then -(un : Int) else (un : Int))

/-- The `Value` text of the `UnmarshalTypeError` for a JSON value that does
not fit the Go type. -/
def JSON.describe : JSON → GoString
  | .null => str "null"
  | .bool _ => str "bool"
  | .number _ => str "number"
  | .string _ => str "string"
  | .array _ => str "array"
  | .object _ => str "object"

/-- Decoding a JSON value into a Go `string` field: a string is stored, `null`
leaves the field alone, anything else is a type error and the field is skipped. -/
def storeString (field cur : GoString) : JSON → GoString × Option GoError
  | .string s => (s, none)
  | .null => (cur, none)
  | v => (cur, some (.jsonUnmarshalType v.describe field))

/-- Decoding a JSON value into a Go `int` field (64 bits, as on amd64 and
arm64): a number literal that `ParseInt` accepts is stored, `null` leaves the field alone, anything
else is a type error and the field is skipped. -/
def storeInt (field : GoString) (cur : Int) : JSON → Int × Option GoError
  | .number lit =>
    match ParseInt lit with
    | some n => (n, none)
    | none => (cur, some (.jsonUnmarshalType (str "number " ++ lit) field))
  | .null => (cur, none)
  | v => (cur, some (.jsonUnmarshalType v.describe field))

/-- The decoder's `saveError`: the earliest error is kept. -/
def saveError (saved err : Option GoError) : Option GoError :=
  match saved with
  | some e => some e
  | none => err

/-- Case folding of an object key for the comparison with an ASCII field name:
ASCII letters are folded to upper case, and the two non-ASCII runes whose
simple case folding is an ASCII letter, U+017F (long s, `C5 BF`) and U+212A
(Kelvin sign, `E2 84 AA`), to `S` and `K`. Other bytes are kept. -/
def foldName : GoString → GoString
  | [] => []
  | c :: rest =>
    if c = 0xC5 then
      match rest with
      | d :: rest2 => if d = 0xBF then ch 'S' :: foldName rest2 else c :: foldName (d :: rest2)
      | [] => [c]
    else if c = 0xE2 then
      match rest with
      | d :: e :: rest3 =>
        if d = 0x84 && e = 0xAA then ch 'K' :: foldName rest3 else c :: foldName (d :: e :: rest3)
      | [d] => c :: foldName [d]
      | [] => [c]
    else if ch 'a' ≤ c && c ≤ ch 'z' then (c - 32) :: foldName rest
    else c :: foldName rest

/-- The field of a struct that an object key selects: the field whose JSON
name is the key, else the first field whose name equals the key under case
folding. -/
def findField {α : Type} (fields : List (α × GoString)) (key : GoString) : Option α :=
  match fields.find? (fun f => f.2 = key) with
  | some f => some f.1
  | none => (fields.find? (fun f => foldName f.2 = foldName key)).map Prod.fst

/-- Go `json.Unmarshal(data, v)` for `v` pointing (directly or through an
interface holding the pointer) to a struct: a syntax error is returned before
anything is stored; `null` stores nothing; an object stores its members one by
one and the earliest type error is returned at the end; any other value is a
type error. -/
def Unmarshal {σ : Type} (env : Env)
    (setMember : σ × Option GoError → GoString × JSON → σ × Option GoError)
    (goType : GoString) (data : GoString) (val : σ) : σ × Option GoError :=
  match env.jsonParse data with
  | none => (val, some .jsonSyntax)
  | some .null => (val, none)
  | some (.object members) => members.foldl setMember (val, none)
  | some v => (val, some (.jsonUnmarshalType v.describe goType))

/-! ## The program -/

/-- UserOauthToken is token information returned after requesting to fetch the access token. -/
structure UserOauthToken where
  IDToken : GoString
  ExpiresAt : Int
  TokenType : GoString
  AccessToken : GoString
  RefreshToken : GoString
  deriving DecidableEq, Repr

/-- The fields of `UserOauthToken`. -/
inductive TokenField where
  | IDToken | ExpiresAt | TokenType | AccessToken | RefreshToken
  deriving DecidableEq, Repr

/-- The `json:"..."` tags of `UserOauthToken`, in declaration order. -/
def tokenTags : List (TokenField × GoString) :=
  [(.IDToken, str "id_token"), (.ExpiresAt, str "expires_in"), (.TokenType, str "token_type"),
   (.AccessToken, str "access_token"), (.RefreshToken, str "refresh_token")]

/-- Decoding of one object member into a `UserOauthToken`. -/
def UserOauthToken.setMember (st : UserOauthToken × Option GoError) (m : GoString × JSON) :
    UserOauthToken × Option GoError :=
  match findField tokenTags m.1 with
  | none => st
  | some .IDToken =>
    let r := storeString (str "IDToken") st.1.IDToken m.2
    ({ st.1 with IDToken := r.1 }, saveError st.2 r.2)
  | some .ExpiresAt =>
    let r := storeInt (str "ExpiresAt") st.1.ExpiresAt m.2
    ({ st.1 with ExpiresAt := r.1 }, saveError st.2 r.2)
  | some .TokenType =>
    let r := storeString (str "TokenType") st.1.TokenType m.2
    ({ st.1 with TokenType := r.1 }, saveError st.2 r.2)
  | some .AccessToken =>
    let r := storeString (str "AccessToken") st.1.AccessToken m.2
    ({ st.1 with AccessToken := r.1 }, saveError st.2 r.2)
  | some .RefreshToken =>
    let r := storeString (str "RefreshToken") st.1.RefreshToken m.2
    ({ st.1 with RefreshToken := r.1 }, saveError st.2 r.2)

/-- The anonymous struct `badRequest` of `fetchOauthToken`. -/
structure BadRequest where
  Error : GoString
  Description : GoString
  deriving DecidableEq, Repr

/-- The fields of `badRequest`. -/
inductive BadRequestField where
  | Error | Description
  deriving DecidableEq, Repr

/-- The `json:"..."` tags of `badRequest`. -/
def badRequestTags : List (BadRequestField × GoString) :=
  [(.Error, str "error"), (.Description, str "error_description")]

/-- Decoding of one object member into `badRequest`. -/
def BadRequest.setMember (st : BadRequest × Option GoError) (m : GoString × JSON) :
    BadRequest × Option GoError :=
  match findField badRequestTags m.1 with
  | none => st
  | some .Error =>
    let r := storeString (str "Error") st.1.Error m.2
    ({ st.1 with Error := r.1 }, saveError st.2 r.2)
  | some .Description =>
    let r := storeString (str "Description") st.1.Description m.2
    ({ st.1 with Description := r.1 }, saveError st.2 r.2)

/-- Oauth returns a new the methods initate oauth witha IDP. -/
structure Oauth where
  clientID : GoString
  oauthURL : GoString
  tokenURL : GoString
  callbackURL : GoString
  clientSecret : GoString
  scopes : List GoString
  deriving DecidableEq, Repr

/-- New returns the Oauth struct. -/
def New (clientID oauthURL tokenURL callbackURL clientSecret : GoString)
    (scopes : List GoString) : Oauth :=
  { scopes := scopes, clientID := clientID, oauthURL := oauthURL, tokenURL := tokenURL,
    callbackURL := callbackURL, clientSecret := clientSecret }

/-- CreateOauthURL returns a formatted oauth url. -/
def CreateOauthURL (env : Env) (oauth : Oauth) (state : GoString) : GoString × Option GoError :=
  match env.urlParse oauth.oauthURL with
  | .error err => ([], some err)
  | .ok parsedOauthURL =>
    let query := parsedOauthURL.Query
    let query := Values.Set query (str "scope") (Join oauth.scopes (str " "))
    let query := Values.Set query (str "redirect_uri") oauth.callbackURL
    let query := Values.Set query (str "client_id") oauth.clientID
    let query := Values.Set query (str "access_type") (str "offline")
    let query := Values.Set query (str "response_type") (str "code")
    let query := Values.Set query (str "prompt") (str "consent")
    let query := Values.Set query (str "state") state
    let parsedOauthURL := { parsedOauthURL with RawQuery := Values.Encode query }
    (parsedOauthURL.String, none)

/-- The zero value of `UserOauthToken` (`var oauthAccessTokenInfo UserOauthToken`). -/
def UserOauthToken.zero : UserOauthToken :=
  { IDToken := [], ExpiresAt := 0, TokenType := [], AccessToken := [], RefreshToken := [] }

/-- The run-time panic of a field access through a nil pointer. -/
def nilDereference : GoString := str "runtime error: invalid memory address or nil pointer dereference"

/-- The function `fetchOauthToken`, called with `val` pointing to the token
`tok`; the result is the token afterwards and the returned error.
The header is set on `request` before `err` is looked at. -/
def fetchOauthToken (env : Env) (oauthTokenURL urlEncodedBody : GoString) (tok : UserOauthToken) :
    Run (UserOauthToken × Option GoError) :=
  let payload := urlEncodedBody
  match NewRequest env (str "POST") oauthTokenURL payload with
  | (none, _) => ⟨[], .panic nilDereference⟩
  | (some request, err) =>
    let request := { request with
      Header := Values.Set request.Header (str "Content-Type")
        (str "application/x-www-form-urlencoded") }
    match err with
    | some e => ⟨[], .ret (tok, some e)⟩
    | none =>
      match env.clientDo request with
      | .error e => ⟨[request], .ret (tok, some e)⟩
      | .ok response =>
        match response.Body with
        | .error e => ⟨[request], .ret (tok, some e)⟩
        | .ok body =>
          if response.StatusCode ≠ 200 then
            if response.StatusCode = 400 then
              ⟨[request], .ret (tok, some (.errorString
                (str "oauth: error fetching token, endpoint does not exist")))⟩
            else
              match Unmarshal env BadRequest.setMember (str "struct") body
                  ({ Error := [], Description := [] } : BadRequest) with
              | (_, some e) => ⟨[request], .ret (tok, some e)⟩
              | (badRequest, none) =>
                ⟨[request], .ret (tok, some (.errorString
                  (str "oauth: error fetching token " ++ badRequest.Error ++ str " "
                    ++ badRequest.Description)))⟩
          else
            match Unmarshal env UserOauthToken.setMember (str "oauth2.UserOauthToken") body tok with
            | (tok, some e) => ⟨[request], .ret (tok, some e)⟩
            | (tok, none) => ⟨[request], .ret (tok, none)⟩

/-- FetchAccessToken fetches the access token when obtaining the access after
the user has oauth from the oauth prodiver. -/
def FetchAccessToken (env : Env) (oauth : Oauth) (accessCode : GoString) :
    Run (UserOauthToken × Option GoError) :=
  let oauthAccessTokenInfo := UserOauthToken.zero
  let query : Values := []
  let query := Values.Set query (str "client_secret") oauth.clientSecret
  let query := Values.Set query (str "grant_type") (str "authorization_code")
  let query := Values.Set query (str "redirect_uri") oauth.callbackURL
  let query := Values.Set query (str "client_id") oauth.clientID
  let query := Values.Set query (str "code_verifier") (str "")
  let query := Values.Set query (str "code") accessCode
  let r := fetchOauthToken env oauth.tokenURL (Values.Encode query) oauthAccessTokenInfo
  match r.out with
  | .panic msg => ⟨r.sent, .panic msg⟩
  | .ret (oauthAccessTokenInfo, some err) => ⟨r.sent, .ret (oauthAccessTokenInfo, some err)⟩
  | .ret (oauthAccessTokenInfo, none) => ⟨r.sent, .ret (oauthAccessTokenInfo, none)⟩

/-- RefreshAccessToken requests for a new access token from the oauth provider. -/
def RefreshAccessToken (env : Env) (oauth : Oauth) (refreshToken : GoString) :
    Run (UserOauthToken × Option GoError) :=
  let oauthAccessTokenInfo := UserOauthToken.zero
  let query : Values := []
  let query := Values.Set query (str "client_secret") oauth.clientSecret
  let query := Values.Set query (str "refresh_token") refreshToken
  let query := Values.Set query (str "grant_type") (str "refresh_token")
  let query := Values.Set query (str "client_id") oauth.clientID
  let r := fetchOauthToken env oauth.tokenURL (Values.Encode query) oauthAccessTokenInfo
  match r.out with
  | .panic msg => ⟨r.sent, .panic msg⟩
  | .ret (oauthAccessTokenInfo, some err) => ⟨r.sent, .ret (oauthAccessTokenInfo, some err)⟩
  | .ret (oauthAccessTokenInfo, none) => ⟨r.sent, .ret (oauthAccessTokenInfo, none)⟩

/-! ## An environment for the examples -/

/-- An instance of `url.Parse` for the examples: a URL with a control byte or
without a scheme before a leading `:` is rejected, any other is split at the
first `#` and the first `?`. -/
def exampleParse (rawURL : GoString) : Except GoError URL :=
  let c := Cut rawURL (ch '#')
  let u := c.1
  if u.any (fun b => decide (b < 0x20 ∨ b = 0x7f)) then
    .error (.lib (str "net/url: invalid control character in URL"))
  else if u.head? = some (ch ':') then .error (.lib (str "missing protocol scheme"))
  else if u.getLast? = some (ch '?') && u.count (ch '?') = 1 then
    .ok { front := u.dropLast, ForceQuery := true, RawQuery := [], frag := c.2.1 }
  else
    let q := Cut u (ch '?')
    .ok { front := q.1, ForceQuery := false, RawQuery := q.2.1, frag := c.2.1 }

/-- The JSON values of the response bodies used in the examples; any other
body used there is malformed. -/
def exampleJSON (data : GoString) : Option JSON :=
  if data = str "\x7b\"error\":\"server_error\",\"error_description\":\"boom\"\x7d" then
    some (.object [(str "error", .string (str "server_error")),
      (str "error_description", .string (str "boom"))])
  else if data = str "\x7b\"access_token\":\"a\",\"ACCESS_TOKEN\":\"b\"\x7d" then
    some (.object [(str "access_token", .string (str "a")),
      (str "ACCESS_TOKEN", .string (str "b"))])
  else if data = str "\x7b\"error\":\"xyz\",\"ERROR\":\"b\",\"error_description\":\"d\"\x7d" then
    some (.object [(str "error", .string (str "xyz")), (str "ERROR", .string (str "b")),
      (str "error_description", .string (str "d"))])
  else if data = str "\x7b\"access_token\":\"abc\",\"expires_in\":\"soon\"\x7d" then
    some (.object [(str "access_token", .string (str "abc")),
      (str "expires_in", .string (str "soon"))])
  else if data = str "\x7b\"access_token\":\"abc\",\"Expires_In\":3600,\"extra\":true\x7d" then
    some (.object [(str "access_token", .string (str "abc")),
      (str "Expires_In", .number (str "3600")), (str "extra", .bool true)])
  else none

/-- An environment whose token endpoint answers every request with `response`. -/
def exampleEnv (response : Except GoError Response) : Env :=
  { urlParse := exampleParse, clientDo := fun _ => response, jsonParse := exampleJSON }

/-- The client of the examples. -/
def exampleOauth : Oauth :=
  New (str "cid") (str "https://idp.example/auth") (str "https://idp.example/token")
    (str "https://app.example/cb") (str "secret") [str "profile", str "email"]

/-! ## Auxiliary definitions for the proofs -/

/-- One encoded pair `key=value` of a query string. -/
def segment (p : GoString × GoString) : GoString :=
  QueryEscape p.1 ++ ch '=' :: QueryEscape p.2

/-- Segments joined by `&`. -/
def joinAmp : List GoString → GoString
  | [] => []
  | s :: rest => s ++ rest.flatMap fun t => ch '&' :: t

/-- What `Encode` appends to its buffer for one pair. -/
def emit (buf : GoString) (p : GoString × GoString) : GoString :=
  (if buf.length > 0 then buf ++ [ch '&'] else buf) ++ QueryEscape p.1 ++ [ch '='] ++ QueryEscape p.2

/-- The pairs of a `Values` in the order in which `Encode` writes them. -/
def Values.pairs (v : Values) : List (GoString × GoString) :=
  (sortStrings (v.map Prod.fst)).flatMap fun k => (Values.index v k).map fun x => (k, x)

/-- Every key of the association list occurs once. -/
def Values.WF (v : Values) : Prop := (v.map Prod.fst).Nodup

/-- The request that `fetchOauthToken` hands to the HTTP client. -/
def tokenRequest (u : URL) (body : GoString) : Request :=
  { Method := str "POST", URL := u,
    Header := [(str "Content-Type", [str "application/x-www-form-urlencoded"])], Body := body }

/-- The value of the last member of a JSON object whose key selects the field `f`. -/
def lastMember (f : TokenField) (members : List (GoString × JSON)) : Option JSON :=
  (members.reverse.find? fun m => decide (findField tokenTags m.1 = some f)).map Prod.snd

/-- A member that selects a field carries a value of the type of the field: a
string, and for `ExpiresAt` an integer literal within the 64-bit `int`. -/
def validMember (m : GoString × JSON) : Bool :=
  match findField tokenTags m.1, m.2 with
  | none, _ => true
  | some .ExpiresAt, .number lit => (ParseInt lit).isSome
  | some .ExpiresAt, _ => false
  | some _, .string _ => true
  | some _, _ => false

/-- The string carried by a member, if any. -/
def stringOf : Option JSON → GoString
  | some (.string s) => s
  | _ => []

/-- The integer carried by a member, if any. -/
def intOf : Option JSON → Int
  | some (.number lit) => (ParseInt lit).getD 0
  | _ => 0

/-- The token described by the members of a JSON object: every field takes the
value of the last member that selects it, and is empty or zero without one. -/
def tokenOf (members : List (GoString × JSON)) : UserOauthToken :=
  { IDToken := stringOf (lastMember .IDToken members),
    ExpiresAt := intOf (lastMember .ExpiresAt members),
    TokenType := stringOf (lastMember .TokenType members),
    AccessToken := stringOf (lastMember .AccessToken members),
    RefreshToken := stringOf (lastMember .RefreshToken members) }

/-- The pieces of a raw query between the `&` separators. -/
def splitAmp : GoString → List GoString
  | [] => [[]]
  | c :: rest =>
    if c = ch '&' then [] :: splitAmp rest
    else
      match splitAmp rest with
      | [] => [[c]]
      | s :: ss => (c :: s) :: ss

/-- The parameter that one piece of a raw query carries in decodable form: an
empty piece and a piece that contains `;` carry none; otherwise the piece is
cut at its first `=`, and it carries the unescaped key and value when both are
well-formed percent-encodings, and none when either has a malformed escape. -/
def decodePair (piece : GoString) : Option (GoString × GoString) :=
  if ch ';' ∈ piece then none
  else if piece = [] then none
  else
    match QueryUnescape (Cut piece (ch '=')).1, QueryUnescape (Cut piece (ch '=')).2.1 with
    | .ok key, .ok value => some (key, value)
    | _, _ => none

/-- The decodable parameters of a raw query, in the order in which they are
written. -/
def rawParameters (query : GoString) : List (GoString × GoString) :=
  (splitAmp query).filterMap decodePair

/-- The value of the last member of a JSON object whose key selects the field
`f` of `badRequest`. -/
def lastErrorMember (f : BadRequestField) (members : List (GoString × JSON)) : Option JSON :=
  (members.reverse.find? fun m => decide (findField badRequestTags m.1 = some f)).map Prod.snd

/-- A member that selects a field of `badRequest` carries a string. -/
def validErrorMember (m : GoString × JSON) : Bool :=
  match findField badRequestTags m.1, m.2 with
  | none, _ => true
  | some _, .string _ => true
  | some _, _ => false

/-- The `badRequest` described by the members of a JSON object: each field
takes the string of the last member that selects it, and is empty without one. -/
def badRequestOf (members : List (GoString × JSON)) : BadRequest :=
  { Error := stringOf (lastErrorMember .Error members),
    Description := stringOf (lastErrorMember .Description members) }

/-! ## Escaping round trip -/

set_option maxRecDepth 100000 in
theorem escapeByte_cases (c : Byte) :
    (c = ch ' ' ∧ escapeByte c = [ch '+']) ∨
    (escapeByte c = [ch '%', upperhex (c >>> 4), upperhex (c &&& 15)] ∧
      ishex (upperhex (c >>> 4)) = true ∧ ishex (upperhex (c &&& 15)) = true ∧
      (unhex (upperhex (c >>> 4)) <<< 4 ||| unhex (upperhex (c &&& 15))) = c) ∨
    (escapeByte c = [c] ∧ c ≠ ch '%' ∧ c ≠ ch '+') := by
  revert c
  decide!

/-- The bytes that separate the parts of a query string. -/
theorem separators_cases (c : Byte) :
    (c ≠ ch '&' ∧ c ≠ ch '=' ∧ c ≠ ch ';' ∧ c ≠ ch '?' ∧ c ≠ ch '#') ∨
      shouldEscape c = true := by
  revert c
  decide!

set_option maxRecDepth 100000 in
theorem upperhex_clean (c : Byte) :
    upperhex c ≠ ch '&' ∧ upperhex c ≠ ch '=' ∧ upperhex c ≠ ch ';' ∧ upperhex c ≠ ch '?' ∧
      upperhex c ≠ ch '#' := by
  revert c
  decide!

theorem escapeByte_clean (c : Byte) :
    ∀ b ∈ escapeByte c, b ≠ ch '&' ∧ b ≠ ch '=' ∧ b ≠ ch ';' ∧ b ≠ ch '?' ∧ b ≠ ch '#' := by
  intro b hb
  unfold escapeByte at hb
  split at hb
  · simp only [List.mem_singleton] at hb
    subst hb
    decide
  · split at hb
    · simp only [List.mem_cons, List.mem_singleton, List.not_mem_nil, or_false] at hb
      rcases hb with rfl | rfl | rfl
      · decide
      · exact upperhex_clean _
      · exact upperhex_clean _
    · rename_i h
      simp only [List.mem_singleton] at hb
      subst hb
      rcases separators_cases b with h2 | h2
      · exact h2
      · exact absurd h2 h

theorem QueryUnescape_cons (c : Byte) (rest : GoString) :
    QueryUnescape (c :: rest) =
      if c = ch '%' then
        match rest with
        | a :: b :: rest2 =>
          if ishex a && ishex b then
            (QueryUnescape rest2).map fun t => (unhex a <<< 4 ||| unhex b) :: t
          else .error (.escape ((c :: rest).take 3))
        | _ => .error (.escape ((c :: rest).take 3))
      else if c = ch '+' then (QueryUnescape rest).map fun t => ch ' ' :: t
      else (QueryUnescape rest).map fun t => c :: t := by
  cases rest with
  | nil => simp [QueryUnescape]
  | cons a r =>
    cases r with
    | nil => simp [QueryUnescape]
    | cons b r => rw [QueryUnescape]

theorem QueryUnescape_escapeByte (c : Byte) (t : GoString) :
    QueryUnescape (escapeByte c ++ t) = (QueryUnescape t).map fun r => c :: r := by
  rcases escapeByte_cases c with ⟨hc, h⟩ | ⟨h, h1, h2, h3⟩ | ⟨h, h1, h2⟩
  · subst hc
    rw [h]
    simp [QueryUnescape_cons, (by decide : ch '+' ≠ ch '%')]
  · rw [h]
    simp [QueryUnescape_cons, h1, h2, h3]
  · rw [h]
    simp [QueryUnescape_cons, h1, h2]

theorem QueryUnescape_QueryEscape (s : GoString) : QueryUnescape (QueryEscape s) = .ok s := by
  induction s with
  | nil => rfl
  | cons c s ih =>
    have : QueryEscape (c :: s) = escapeByte c ++ QueryEscape s := by
      simp [QueryEscape]
    rw [this, QueryUnescape_escapeByte, ih]
    rfl

theorem QueryEscape_clean (s : GoString) :
    ∀ b ∈ QueryEscape s, b ≠ ch '&' ∧ b ≠ ch '=' ∧ b ≠ ch ';' ∧ b ≠ ch '?' ∧ b ≠ ch '#' := by
  intro b hb
  simp only [QueryEscape, List.mem_flatMap] at hb
  obtain ⟨c, _, hc⟩ := hb
  exact escapeByte_clean c b hc

/-! ## `Cut` -/

theorem Cut_append_sep (a b : GoString) (sep : Byte) (h : sep ∉ a) :
    Cut (a ++ sep :: b) sep = (a, b, true) := by
  induction a with
  | nil => simp [Cut]
  | cons c a ih =>
    have hc : c ≠ sep := fun e => h (by simp [e])
    have ha : sep ∉ a := fun e => h (by simp [e])
    simp [Cut, hc, ih ha]

theorem Cut_not_mem (a : GoString) (sep : Byte) (h : sep ∉ a) : Cut a sep = (a, [], false) := by
  induction a with
  | nil => simp [Cut]
  | cons c a ih =>
    have hc : c ≠ sep := fun e => h (by simp [e])
    have ha : sep ∉ a := fun e => h (by simp [e])
    simp [Cut, hc, ih ha]

/-! ## Decoding an encoded query -/

theorem segment_clean (p : GoString × GoString) : ch '&' ∉ segment p ∧ ch ';' ∉ segment p := by
  have h1 := QueryEscape_clean p.1
  have h2 := QueryEscape_clean p.2
  constructor
  · intro h
    simp only [segment, List.mem_append, List.mem_cons] at h
    rcases h with h | h | h
    · exact (h1 _ h).1 rfl
    · exact absurd h (by decide)
    · exact (h2 _ h).1 rfl
  · intro h
    simp only [segment, List.mem_append, List.mem_cons] at h
    rcases h with h | h | h
    · exact (h1 _ h).2.2.1 rfl
    · exact absurd h (by decide)
    · exact (h2 _ h).2.2.1 rfl

theorem segment_ne_nil (p : GoString × GoString) : segment p ≠ [] := by
  simp [segment]

theorem Cut_segment (p : GoString × GoString) :
    Cut (segment p) (ch '=') = (QueryEscape p.1, QueryEscape p.2, true) := by
  apply Cut_append_sep
  intro h
  exact (QueryEscape_clean p.1 _ h).2.1 rfl

theorem parseQueryLoop_nil (fuel : Nat) (m : Values) (err : Option GoError) :
    parseQueryLoop fuel m err [] = (m, err) := by
  cases fuel <;> simp [parseQueryLoop]

theorem parseQueryLoop_segment (fuel : Nat) (m : Values) (err : Option GoError)
    (p : GoString × GoString) (query rest : GoString)
    (hq : Cut query (ch '&') = (segment p, rest, true) ∨ Cut query (ch '&') = (segment p, rest, false))
    (hne : query ≠ []) :
    parseQueryLoop (fuel + 1) m err query = parseQueryLoop fuel (Values.add m p.1 p.2) err rest := by
  have hc : (Cut query (ch '&')).1 = segment p ∧ (Cut query (ch '&')).2.1 = rest := by
    rcases hq with h | h <;> simp [h]
  rw [parseQueryLoop]
  simp only [hne, if_false, hc.1, hc.2, (segment_clean p).2, segment_ne_nil p, Cut_segment,
    QueryUnescape_QueryEscape]

theorem joinAmp_cons_cons (a b : GoString) (rest : List GoString) :
    joinAmp (a :: b :: rest) = a ++ ch '&' :: joinAmp (b :: rest) := by
  simp [joinAmp]

theorem parseQueryLoop_joinAmp (pairs : List (GoString × GoString)) :
    ∀ (fuel : Nat) (m : Values) (err : Option GoError), pairs.length ≤ fuel →
      parseQueryLoop fuel m err (joinAmp (pairs.map segment)) =
        (pairs.foldl (fun m p => Values.add m p.1 p.2) m, err) := by
  induction pairs with
  | nil =>
    intro fuel m err _
    exact parseQueryLoop_nil fuel m err
  | cons p rest ih =>
    intro fuel m err hfuel
    obtain ⟨fuel, rfl⟩ : ∃ f, fuel = f + 1 := ⟨fuel - 1, by simp at hfuel; omega⟩
    have hrest : rest.length ≤ fuel := by simp at hfuel; omega
    cases rest with
    | nil =>
      have hcut : Cut (segment p) (ch '&') = (segment p, [], false) :=
        Cut_not_mem _ _ (segment_clean p).1
      have hstep := parseQueryLoop_segment fuel m err p (segment p) [] (Or.inr hcut)
        (segment_ne_nil p)
      simp only [List.map, joinAmp, List.flatMap_nil, List.append_nil, List.foldl]
      rw [hstep, parseQueryLoop_nil]
    | cons q rest =>
      have hcut : Cut (segment p ++ ch '&' :: joinAmp ((q :: rest).map segment)) (ch '&') =
          (segment p, joinAmp ((q :: rest).map segment), true) :=
        Cut_append_sep _ _ _ (segment_clean p).1
      have hstep := parseQueryLoop_segment fuel m err p _ _ (Or.inl hcut) (by simp)
      have hj : joinAmp ((p :: q :: rest).map segment) =
          segment p ++ ch '&' :: joinAmp ((q :: rest).map segment) := by
        simp only [List.map]
        exact joinAmp_cons_cons _ _ _
      rw [hj, hstep, ih fuel _ err hrest]
      rfl

theorem length_le_joinAmp (pairs : List (GoString × GoString)) :
    pairs.length ≤ (joinAmp (pairs.map segment)).length := by
  induction pairs with
  | nil => simp [joinAmp]
  | cons p rest ih =>
    cases rest with
    | nil =>
      have := segment_ne_nil p
      have : 0 < (segment p).length := List.length_pos.mpr this
      simp [joinAmp]
      omega
    | cons q rest =>
      have hj : joinAmp ((p :: q :: rest).map segment) =
          segment p ++ ch '&' :: joinAmp ((q :: rest).map segment) := by
        simp only [List.map]
        exact joinAmp_cons_cons _ _ _
      rw [hj]
      simp only [List.length_append, List.length_cons] at ih ⊢
      omega

theorem ParseQuery_joinAmp (pairs : List (GoString × GoString)) :
    ParseQuery (joinAmp (pairs.map segment)) =
      (pairs.foldl (fun m p => Values.add m p.1 p.2) [], none) :=
  parseQueryLoop_joinAmp pairs _ [] none (length_le_joinAmp pairs)

/-! ## `Encode` writes the joined segments -/

theorem foldl_emit_ne_nil (pairs : List (GoString × GoString)) (buf : GoString) (h : buf ≠ []) :
    pairs.foldl emit buf = buf ++ (pairs.map segment).flatMap fun t => ch '&' :: t := by
  induction pairs generalizing buf with
  | nil => simp
  | cons p rest ih =>
    have hpos : 0 < buf.length := List.length_pos.mpr h
    have he : emit buf p = buf ++ ch '&' :: segment p := by
      simp [emit, hpos, segment]
    have hne : emit buf p ≠ [] := by
      rw [he]
      simp [h]
    simp only [List.foldl, List.map, List.flatMap_cons]
    rw [ih _ hne, he]
    simp

theorem foldl_emit_nil (pairs : List (GoString × GoString)) :
    pairs.foldl emit [] = joinAmp (pairs.map segment) := by
  cases pairs with
  | nil => rfl
  | cons p rest =>
    have he : emit [] p = segment p := by
      simp [emit, segment]
    simp only [List.foldl, List.map, joinAmp]
    rw [he, foldl_emit_ne_nil _ _ (segment_ne_nil p)]

theorem foldl_keys_emit (v : Values) (keys : List GoString) (buf : GoString) :
    keys.foldl (fun buf k =>
      (Values.index v k).foldl (fun buf x =>
        (if buf.length > 0 then buf ++ [ch '&'] else buf) ++ QueryEscape k ++ [ch '=']
          ++ QueryEscape x) buf) buf =
    (keys.flatMap fun k => (Values.index v k).map fun x => (k, x)).foldl emit buf := by
  induction keys generalizing buf with
  | nil => rfl
  | cons k keys ih =>
    simp only [List.foldl, List.flatMap_cons, List.foldl_append, List.foldl_map]
    rw [ih]
    rfl

theorem Encode_eq (v : Values) : Values.Encode v = joinAmp (v.pairs.map segment) := by
  unfold Values.Encode
  split
  · rename_i h
    have : v = [] := List.length_eq_zero.mp h
    subst this
    rfl
  · simp only []
    rw [foldl_keys_emit, foldl_emit_nil]
    rfl

/-! ## Lookups in `Values` -/

theorem index_Set (v : Values) (k x key : GoString) :
    Values.index (Values.Set v k x) key = if k = key then [x] else Values.index v key := by
  induction v with
  | nil => simp [Values.Set, Values.index]
  | cons e v ih =>
    obtain ⟨k1, vs⟩ := e
    by_cases h1 : k1 = k
    · subst h1
      by_cases h2 : k1 = key <;> simp [Values.Set, Values.index, h2]
    · by_cases h2 : k1 = key
      · subst h2
        have : ¬ k = k1 := fun e => h1 e.symm
        simp [Values.Set, Values.index, h1, this]
      · simp [Values.Set, Values.index, h1, h2, ih]

theorem index_add (v : Values) (k x key : GoString) :
    Values.index (Values.add v k x) key =
      if k = key then Values.index v key ++ [x] else Values.index v key := by
  induction v with
  | nil => simp [Values.add, Values.index]
  | cons e v ih =>
    obtain ⟨k1, vs⟩ := e
    by_cases h1 : k1 = k
    · subst h1
      by_cases h2 : k1 = key <;> simp [Values.add, Values.index, h2]
    · by_cases h2 : k1 = key
      · subst h2
        have : ¬ k = k1 := fun e => h1 e.symm
        simp [Values.add, Values.index, h1, this]
      · simp [Values.add, Values.index, h1, h2, ih]

theorem index_of_not_mem (v : Values) (key : GoString) (h : key ∉ v.map Prod.fst) :
    Values.index v key = [] := by
  induction v with
  | nil => rfl
  | cons e v ih =>
    obtain ⟨k1, vs⟩ := e
    simp only [List.map, List.mem_cons, not_or] at h
    have : ¬ k1 = key := fun e => h.1 e.symm
    simp [Values.index, this, ih h.2]

theorem index_foldl_add (pairs : List (GoString × GoString)) (m : Values) (key : GoString) :
    Values.index (pairs.foldl (fun m p => Values.add m p.1 p.2) m) key =
      Values.index m key ++ (pairs.filter fun p => p.1 = key).map Prod.snd := by
  induction pairs generalizing m with
  | nil => simp
  | cons p rest ih =>
    simp only [List.foldl]
    rw [ih, index_add]
    by_cases h : p.1 = key <;> simp [h, List.filter]

theorem keys_Set (v : Values) (k x : GoString) :
    (Values.Set v k x).map Prod.fst =
      if k ∈ v.map Prod.fst then v.map Prod.fst else v.map Prod.fst ++ [k] := by
  induction v with
  | nil => simp [Values.Set]
  | cons e v ih =>
    obtain ⟨k1, vs⟩ := e
    by_cases h1 : k1 = k
    · subst h1
      simp [Values.Set]
    · have h2 : ¬ k = k1 := fun e => h1 e.symm
      simp only [Values.Set, h1, if_false, List.map, List.mem_cons, h2, false_or, ih]
      split <;> simp

theorem keys_add (v : Values) (k x : GoString) :
    (Values.add v k x).map Prod.fst =
      if k ∈ v.map Prod.fst then v.map Prod.fst else v.map Prod.fst ++ [k] := by
  induction v with
  | nil => simp [Values.add]
  | cons e v ih =>
    obtain ⟨k1, vs⟩ := e
    by_cases h1 : k1 = k
    · subst h1
      simp [Values.add]
    · have h2 : ¬ k = k1 := fun e => h1 e.symm
      simp only [Values.add, h1, if_false, List.map, List.mem_cons, h2, false_or, ih]
      split <;> simp

theorem WF_nil : Values.WF [] := by
  simp [Values.WF]

theorem WF_Set (v : Values) (k x : GoString) (h : Values.WF v) : Values.WF (Values.Set v k x) := by
  unfold Values.WF at *
  rw [keys_Set]
  split
  · exact h
  · rename_i hk
    rw [List.nodup_append]
    refine ⟨h, by simp, ?_⟩
    intro a ha hb
    simp only [List.mem_singleton] at hb
    subst hb
    exact hk ha

theorem WF_add (v : Values) (k x : GoString) (h : Values.WF v) : Values.WF (Values.add v k x) := by
  unfold Values.WF at *
  rw [keys_add]
  split
  · exact h
  · rename_i hk
    rw [List.nodup_append]
    refine ⟨h, by simp, ?_⟩
    intro a ha hb
    simp only [List.mem_singleton] at hb
    subst hb
    exact hk ha

theorem WF_foldl_add (pairs : List (GoString × GoString)) (m : Values) (h : Values.WF m) :
    Values.WF (pairs.foldl (fun m p => Values.add m p.1 p.2) m) := by
  induction pairs generalizing m with
  | nil => exact h
  | cons p rest ih => exact ih _ (WF_add _ _ _ h)

theorem WF_parseQueryLoop (fuel : Nat) :
    ∀ (m : Values) (err : Option GoError) (query : GoString), Values.WF m →
      Values.WF (parseQueryLoop fuel m err query).1 := by
  induction fuel with
  | zero =>
    intro m err query h
    exact h
  | succ fuel ih =>
    intro m err query h
    rw [parseQueryLoop]
    split
    · exact h
    · simp only []
      split
      · exact ih _ _ _ h
      · split
        · exact ih _ _ _ h
        · split
          · exact ih _ _ _ h
          · split
            · exact ih _ _ _ h
            · exact ih _ _ _ (WF_add _ _ _ h)

theorem WF_Query (u : URL) : Values.WF u.Query :=
  WF_parseQueryLoop _ _ _ _ WF_nil

/-! ## Sorting the keys -/

theorem insertSorted_perm (k : GoString) (l : List GoString) :
    (insertSorted k l).Perm (k :: l) := by
  induction l with
  | nil => exact List.Perm.refl _
  | cons x xs ih =>
    unfold insertSorted
    split
    · exact List.Perm.refl _
    · exact (List.Perm.cons x ih).trans (List.Perm.swap k x xs)

theorem sortStrings_perm (l : List GoString) : (sortStrings l).Perm l := by
  induction l with
  | nil => exact List.Perm.refl _
  | cons k ks ih =>
    unfold sortStrings
    exact (insertSorted_perm k _).trans (List.Perm.cons k ih)

/-! ## The round trip of `Encode` and `ParseQuery` -/

theorem filter_pairs (f : GoString → List GoString) (keys : List GoString) (key : GoString)
    (hnd : keys.Nodup) :
    (((keys.flatMap fun k => (f k).map fun x => (k, x)).filter fun p => p.1 = key).map Prod.snd) =
      if key ∈ keys then f key else [] := by
  induction keys with
  | nil => simp
  | cons k keys ih =>
    have hk : k ∉ keys := (List.nodup_cons.mp hnd).1
    have hnd2 : keys.Nodup := (List.nodup_cons.mp hnd).2
    simp only [List.flatMap_cons, List.filter_append, List.map_append, ih hnd2]
    by_cases h : k = key
    · subst h
      simp [hk, List.filter_map, Function.comp_def]
    · have h2 : ¬ key = k := fun e => h e.symm
      simp [h, h2, List.filter_map, Function.comp_def]

theorem index_ParseQuery_Encode (v : Values) (h : Values.WF v) (key : GoString) :
    Values.index (ParseQuery (Values.Encode v)).1 key = Values.index v key := by
  rw [Encode_eq, ParseQuery_joinAmp, index_foldl_add]
  have hperm := sortStrings_perm (v.map Prod.fst)
  have hnd : (sortStrings (v.map Prod.fst)).Nodup := hperm.nodup_iff.mpr h
  simp only [Values.index, List.nil_append, Values.pairs]
  rw [filter_pairs _ _ _ hnd]
  split
  · rfl
  · rename_i hk
    rw [index_of_not_mem]
    intro hmem
    exact hk (hperm.mem_iff.mpr hmem)

theorem ParseQuery_Encode_error (v : Values) : (ParseQuery (Values.Encode v)).2 = none := by
  rw [Encode_eq, ParseQuery_joinAmp]

/-! ## The encoded query inside a URL string -/

theorem segment_no_mark (p : GoString × GoString) :
    ∀ b ∈ segment p, b ≠ ch '?' ∧ b ≠ ch '#' := by
  intro b h
  simp only [segment, List.mem_append, List.mem_cons] at h
  rcases h with h | h | h
  · exact (QueryEscape_clean p.1 _ h).2.2.2
  · subst h
    decide
  · exact (QueryEscape_clean p.2 _ h).2.2.2

theorem Encode_no_mark (v : Values) : ∀ b ∈ Values.Encode v, b ≠ ch '?' ∧ b ≠ ch '#' := by
  intro b h
  rw [Encode_eq] at h
  generalize v.pairs = pairs at h
  cases pairs with
  | nil => simp [joinAmp] at h
  | cons p rest =>
    simp only [List.map, joinAmp, List.mem_append, List.mem_flatMap, List.mem_map,
      List.mem_cons] at h
    rcases h with h | ⟨t, ⟨q, _, rfl⟩, h | h⟩
    · exact segment_no_mark p b h
    · subst h
      decide
    · exact segment_no_mark q b h

theorem rawQueryOf_String (u : URL) (hfront : ∀ b ∈ u.front, b ≠ ch '?' ∧ b ≠ ch '#')
    (hquery : ∀ b ∈ u.RawQuery, b ≠ ch '?' ∧ b ≠ ch '#') (hne : u.RawQuery ≠ []) :
    rawQueryOf u.String = u.RawQuery := by
  have hcut1 : (Cut u.String (ch '#')).1 = u.front ++ ch '?' :: u.RawQuery := by
    have hno : ch '#' ∉ u.front ++ ch '?' :: u.RawQuery := by
      intro h
      simp only [List.mem_append, List.mem_cons] at h
      rcases h with h | h | h
      · exact (hfront _ h).2 rfl
      · exact absurd h (by decide)
      · exact (hquery _ h).2 rfl
    unfold URL.String
    by_cases hf : u.frag = []
    · simp only [hne, hf, ne_eq, not_false_eq_true, decide_True, Bool.or_true, if_true,
        not_true_eq_false, if_false, List.append_nil]
      rw [Cut_not_mem _ _ hno]
    · simp only [hne, hf, ne_eq, not_false_eq_true, decide_True, Bool.or_true, if_true]
      rw [Cut_append_sep _ _ _ hno]
  have hlast : (u.front ++ ch '?' :: u.RawQuery).getLast? ≠ some (ch '?') := by
    intro h
    have hmem : ch '?' ∈ u.RawQuery := by
      have h2 : (u.front ++ ch '?' :: u.RawQuery).getLast? = u.RawQuery.getLast? := by
        rw [show u.front ++ ch '?' :: u.RawQuery = (u.front ++ [ch '?']) ++ u.RawQuery by simp]
        rw [List.getLast?_append_of_ne_nil _ hne]
      rw [h2] at h
      exact List.mem_of_getLast?_eq_some h
    exact (hquery _ hmem).1 rfl
  have hcut2 : Cut (u.front ++ ch '?' :: u.RawQuery) (ch '?') = (u.front, u.RawQuery, true) :=
    Cut_append_sep _ _ _ (fun h => (hfront _ h).1 rfl)
  unfold rawQueryOf
  simp only [hcut1, hlast, hcut2, decide_False, Bool.false_and, if_false, Bool.false_eq_true]

/-! ## `CreateOauthURL` -/

theorem CreateOauthURL_ok (env : Env) (oauth : Oauth) (state : GoString) (u : URL)
    (hparse : env.urlParse oauth.oauthURL = .ok u) :
    ∃ v : Values,
      CreateOauthURL env oauth state = (URL.String { u with RawQuery := Values.Encode v }, none) ∧
      Values.WF v ∧
      ∀ key, Values.index v key =
        if str "state" = key then [state]
        else if str "prompt" = key then [str "consent"]
        else if str "response_type" = key then [str "code"]
        else if str "access_type" = key then [str "offline"]
        else if str "client_id" = key then [oauth.clientID]
        else if str "redirect_uri" = key then [oauth.callbackURL]
        else if str "scope" = key then [Join oauth.scopes (str " ")]
        else Values.index u.Query key := by
  refine ⟨Values.Set (Values.Set (Values.Set (Values.Set (Values.Set (Values.Set (Values.Set
    u.Query (str "scope") (Join oauth.scopes (str " "))) (str "redirect_uri") oauth.callbackURL)
    (str "client_id") oauth.clientID) (str "access_type") (str "offline"))
    (str "response_type") (str "code")) (str "prompt") (str "consent")) (str "state") state,
    ?_, ?_, ?_⟩
  · simp only [CreateOauthURL, hparse]
  · exact WF_Set _ _ _ (WF_Set _ _ _ (WF_Set _ _ _ (WF_Set _ _ _ (WF_Set _ _ _
      (WF_Set _ _ _ (WF_Set _ _ _ (WF_Query u)))))))
  · intro key
    simp only [index_Set]

/-- C1: when the configured authorize URL parses, `CreateOauthURL` returns no
error and the string of the parsed URL with a new raw query; that query
decodes without error and holds exactly one value for each of `scope` (the
scopes joined by single spaces), `redirect_uri` (the callback URL),
`client_id`, `access_type` (`offline`), `response_type` (`code`), `prompt`
(`consent`) and `state` (the input, verbatim). When the front part of the URL
has no `?` or `#`, that query is the one read back off the returned string. -/
theorem CreateOauthURL_query (env : Env) (oauth : Oauth) (state : GoString) (u : URL)
    (hparse : env.urlParse oauth.oauthURL = .ok u) :
    ∃ rawQuery : GoString,
      CreateOauthURL env oauth state = (URL.String { u with RawQuery := rawQuery }, none) ∧
      (ParseQuery rawQuery).2 = none ∧
      Values.index (ParseQuery rawQuery).1 (str "scope") = [Join oauth.scopes (str " ")] ∧
      Values.index (ParseQuery rawQuery).1 (str "redirect_uri") = [oauth.callbackURL] ∧
      Values.index (ParseQuery rawQuery).1 (str "client_id") = [oauth.clientID] ∧
      Values.index (ParseQuery rawQuery).1 (str "access_type") = [str "offline"] ∧
      Values.index (ParseQuery rawQuery).1 (str "response_type") = [str "code"] ∧
      Values.index (ParseQuery rawQuery).1 (str "prompt") = [str "consent"] ∧
      Values.index (ParseQuery rawQuery).1 (str "state") = [state] ∧
      ((∀ b ∈ u.front, b ≠ ch '?' ∧ b ≠ ch '#') →
        rawQueryOf (CreateOauthURL env oauth state).1 = rawQuery) := by
  obtain ⟨v, hv, hwf, hidx⟩ := CreateOauthURL_ok env oauth state u hparse
  have hstate : Values.index (ParseQuery (Values.Encode v)).1 (str "state") = [state] :=
    (index_ParseQuery_Encode v hwf _).trans ((hidx _).trans rfl)
  refine ⟨Values.Encode v, hv, ParseQuery_Encode_error v,
    (index_ParseQuery_Encode v hwf _).trans ((hidx _).trans rfl),
    (index_ParseQuery_Encode v hwf _).trans ((hidx _).trans rfl),
    (index_ParseQuery_Encode v hwf _).trans ((hidx _).trans rfl),
    (index_ParseQuery_Encode v hwf _).trans ((hidx _).trans rfl),
    (index_ParseQuery_Encode v hwf _).trans ((hidx _).trans rfl),
    (index_ParseQuery_Encode v hwf _).trans ((hidx _).trans rfl), hstate, ?_⟩
  intro hfront
  rw [hv]
  refine rawQueryOf_String { u with RawQuery := Values.Encode v } hfront (Encode_no_mark v) ?_
  intro hnil
  change Values.Encode v = [] at hnil
  rw [hnil] at hstate
  exact absurd hstate (by simp [ParseQuery, parseQueryLoop, Values.index])

/-- Witness of C1, the example of the specification: the client
`New("cid", "https://idp.example/auth", "https://idp.example/token",
"https://app.example/cb", "secret", ["profile","email"])` and state `xyz123`. -/
theorem CreateOauthURL_query_witness :
    (exampleEnv (.error (.lib []))).urlParse exampleOauth.oauthURL =
      .ok ⟨str "https://idp.example/auth", false, [], []⟩ ∧
    CreateOauthURL (exampleEnv (.error (.lib []))) exampleOauth (str "xyz123") =
      (str ("https://idp.example/auth?access_type=offline&client_id=cid&prompt=consent"
        ++ "&redirect_uri=https%3A%2F%2Fapp.example%2Fcb&response_type=code"
        ++ "&scope=profile+email&state=xyz123"), none) ∧
    ∃ rawQuery : GoString,
      CreateOauthURL (exampleEnv (.error (.lib []))) exampleOauth (str "xyz123") =
        (URL.String { (⟨str "https://idp.example/auth", false, [], []⟩ : URL) with
          RawQuery := rawQuery }, none) ∧
      (ParseQuery rawQuery).2 = none ∧
      Values.index (ParseQuery rawQuery).1 (str "scope") =
        [Join exampleOauth.scopes (str " ")] ∧
      Values.index (ParseQuery rawQuery).1 (str "redirect_uri") = [exampleOauth.callbackURL] ∧
      Values.index (ParseQuery rawQuery).1 (str "client_id") = [exampleOauth.clientID] ∧
      Values.index (ParseQuery rawQuery).1 (str "access_type") = [str "offline"] ∧
      Values.index (ParseQuery rawQuery).1 (str "response_type") = [str "code"] ∧
      Values.index (ParseQuery rawQuery).1 (str "prompt") = [str "consent"] ∧
      Values.index (ParseQuery rawQuery).1 (str "state") = [str "xyz123"] ∧
      ((∀ b ∈ (⟨str "https://idp.example/auth", false, [], []⟩ : URL).front,
          b ≠ ch '?' ∧ b ≠ ch '#') →
        rawQueryOf (CreateOauthURL (exampleEnv (.error (.lib []))) exampleOauth
          (str "xyz123")).1 = rawQuery) :=
  ⟨rfl, by decide!,
    CreateOauthURL_query (exampleEnv (.error (.lib []))) exampleOauth (str "xyz123")
      ⟨str "https://idp.example/auth", false, [], []⟩ rfl⟩

/-! ## The parameters of the configured authorize URL -/

theorem splitAmp_Cut (q : GoString) :
    splitAmp q =
      (Cut q (ch '&')).1 ::
        (if (Cut q (ch '&')).2.2 = true then splitAmp (Cut q (ch '&')).2.1 else []) := by
  induction q with
  | nil => rfl
  | cons c rest ih =>
    by_cases hc : c = ch '&'
    · simp [splitAmp, Cut, hc]
    · simp only [splitAmp, Cut, hc, if_false]
      rw [ih]

theorem Cut_not_found (s : GoString) (sep : Byte) (h : (Cut s sep).2.2 = false) :
    (Cut s sep).2.1 = [] := by
  induction s with
  | nil => rfl
  | cons c rest ih =>
    by_cases hc : c = sep
    · simp [Cut, hc] at h
    · simp only [Cut, hc, if_false] at h ⊢
      exact ih h

theorem Cut_rest_length (s : GoString) (sep : Byte) : (Cut s sep).2.1.length ≤ s.length - 1 := by
  induction s with
  | nil => simp [Cut]
  | cons c rest ih =>
    by_cases hc : c = sep
    · simp [Cut, hc]
    · simp only [Cut, hc, if_false, List.length_cons, Nat.add_sub_cancel]
      omega

theorem rawParameters_Cut (q : GoString) :
    rawParameters q =
      (decodePair (Cut q (ch '&')).1).toList ++ rawParameters (Cut q (ch '&')).2.1 := by
  unfold rawParameters
  rw [splitAmp_Cut q]
  cases hfound : (Cut q (ch '&')).2.2 with
  | true =>
    simp only [if_true, List.filterMap_cons]
    cases decodePair (Cut q (ch '&')).1 <;> simp
  | false =>
    rw [Cut_not_found q _ hfound]
    simp only [Bool.false_eq_true, if_false, List.filterMap_cons, List.filterMap_nil]
    have h0 : decodePair [] = none := by decide
    simp only [splitAmp, List.filterMap_cons, List.filterMap_nil, h0]
    cases decodePair (Cut q (ch '&')).1 <;> simp

theorem parseQueryLoop_values (fuel : Nat) :
    ∀ (m : Values) (err : Option GoError) (query : GoString), query.length ≤ fuel →
      (parseQueryLoop fuel m err query).1 =
        (rawParameters query).foldl (fun m p => Values.add m p.1 p.2) m := by
  induction fuel with
  | zero =>
    intro m err query h
    have hq : query = [] := List.length_eq_zero.mp (Nat.le_zero.mp h)
    subst hq
    rfl
  | succ fuel ih =>
    intro m err query h
    by_cases hq : query = []
    · subst hq
      rfl
    · have hlen : (Cut query (ch '&')).2.1.length ≤ fuel := by
        have h1 := Cut_rest_length query (ch '&')
        have h2 : 0 < query.length := List.length_pos.mpr hq
        omega
      rw [parseQueryLoop, rawParameters_Cut query]
      simp only [hq, if_false]
      unfold decodePair
      by_cases hsemi : ch ';' ∈ (Cut query (ch '&')).1
      · simp only [hsemi, if_true, Option.toList, List.nil_append]
        exact ih _ _ _ hlen
      · by_cases hempty : (Cut query (ch '&')).1 = []
        · simp only [hsemi, hempty, if_true, if_false, Option.toList, List.nil_append]
          exact ih _ _ _ hlen
        · simp only [hsemi, hempty, if_false]
          cases hk : QueryUnescape (Cut (Cut query (ch '&')).1 (ch '=')).1 with
          | error e =>
            simp only [Option.toList, List.nil_append]
            exact ih _ _ _ hlen
          | ok key =>
            cases hv : QueryUnescape (Cut (Cut query (ch '&')).1 (ch '=')).2.1 with
            | error e =>
              simp only [Option.toList, List.nil_append]
              exact ih _ _ _ hlen
            | ok value =>
              simp only [Option.toList, List.singleton_append, List.foldl]
              exact ih _ _ _ hlen

theorem index_Query (u : URL) (key : GoString) :
    Values.index u.Query key =
      ((rawParameters u.RawQuery).filter fun p => p.1 = key).map Prod.snd := by
  unfold URL.Query ParseQuery
  rw [parseQueryLoop_values _ _ _ _ (Nat.le_refl _), index_foldl_add]
  rfl

/-- C2, as the code has it: when the configured authorize URL parses, every key
other than the seven that `CreateOauthURL` sets has, in the decoded query of
the returned URL, exactly the values of the decodable parameters of the
configured raw query with that key, in their order; a piece of the raw query
that contains `;` or a malformed percent escape contributes nothing. Each of
the seven keys has exactly the single value that `CreateOauthURL` sets,
whatever values it had before. -/
theorem CreateOauthURL_keeps_decodable_parameters (env : Env) (oauth : Oauth)
    (state : GoString) (u : URL) (hparse : env.urlParse oauth.oauthURL = .ok u) :
    ∃ rawQuery : GoString,
      CreateOauthURL env oauth state = (URL.String { u with RawQuery := rawQuery }, none) ∧
      (∀ key, key ∉ [str "scope", str "redirect_uri", str "client_id", str "access_type",
          str "response_type", str "prompt", str "state"] →
        Values.index (ParseQuery rawQuery).1 key =
          ((rawParameters u.RawQuery).filter fun p => p.1 = key).map Prod.snd) ∧
      (∀ p ∈ [(str "scope", Join oauth.scopes (str " ")), (str "redirect_uri", oauth.callbackURL),
          (str "client_id", oauth.clientID), (str "access_type", str "offline"),
          (str "response_type", str "code"), (str "prompt", str "consent"),
          (str "state", state)],
        Values.index (ParseQuery rawQuery).1 p.1 = [p.2]) := by
  obtain ⟨v, hv, hwf, hidx⟩ := CreateOauthURL_ok env oauth state u hparse
  refine ⟨Values.Encode v, hv, ?_, ?_⟩
  · intro key hkey
    simp only [List.mem_cons, List.mem_singleton, List.not_mem_nil, or_false, not_or] at hkey
    obtain ⟨h1, h2, h3, h4, h5, h6, h7⟩ := hkey
    rw [index_ParseQuery_Encode v hwf, hidx, if_neg (Ne.symm h7), if_neg (Ne.symm h6),
      if_neg (Ne.symm h5), if_neg (Ne.symm h4), if_neg (Ne.symm h3), if_neg (Ne.symm h2),
      if_neg (Ne.symm h1)]
    exact index_Query u key
  · intro p hp
    simp only [List.mem_cons, List.mem_singleton, List.not_mem_nil, or_false] at hp
    rcases hp with rfl | rfl | rfl | rfl | rfl | rfl | rfl <;>
      exact (index_ParseQuery_Encode v hwf _).trans ((hidx _).trans rfl)

/-- Witness of C2: the authorize URL
`https://idp.example/auth?hd=a.example&state=old&x=%zz&hd=b#top` keeps both
values of `hd`, its `state` is replaced, and the piece `x=%zz` is not a
decodable parameter. -/
theorem CreateOauthURL_keeps_decodable_parameters_witness :
    (exampleEnv (.error (.lib []))).urlParse
        (str "https://idp.example/auth?hd=a.example&state=old&x=%zz&hd=b#top") =
      .ok ⟨str "https://idp.example/auth", false, str "hd=a.example&state=old&x=%zz&hd=b",
        str "top"⟩ ∧
    rawParameters (str "hd=a.example&state=old&x=%zz&hd=b") =
      [(str "hd", str "a.example"), (str "state", str "old"), (str "hd", str "b")] ∧
    CreateOauthURL (exampleEnv (.error (.lib [])))
        { exampleOauth with
          oauthURL := str "https://idp.example/auth?hd=a.example&state=old&x=%zz&hd=b#top" }
        (str "xyz123") =
      (str ("https://idp.example/auth?access_type=offline&client_id=cid&hd=a.example&hd=b"
        ++ "&prompt=consent&redirect_uri=https%3A%2F%2Fapp.example%2Fcb&response_type=code"
        ++ "&scope=profile+email&state=xyz123#top"), none) ∧
    ∃ rawQuery : GoString,
      CreateOauthURL (exampleEnv (.error (.lib [])))
          { exampleOauth with
            oauthURL :=
              str "https://idp.example/auth?hd=a.example&state=old&x=%zz&hd=b#top" }
          (str "xyz123") =
        (URL.String { (⟨str "https://idp.example/auth", false,
          str "hd=a.example&state=old&x=%zz&hd=b", str "top"⟩ : URL) with
          RawQuery := rawQuery }, none) ∧
      (∀ key, key ∉ [str "scope", str "redirect_uri", str "client_id", str "access_type",
          str "response_type", str "prompt", str "state"] →
        Values.index (ParseQuery rawQuery).1 key =
          ((rawParameters (⟨str "https://idp.example/auth", false,
            str "hd=a.example&state=old&x=%zz&hd=b", str "top"⟩ : URL).RawQuery).filter
              fun p => p.1 = key).map Prod.snd) ∧
      (∀ p ∈ [(str "scope", Join exampleOauth.scopes (str " ")),
          (str "redirect_uri", exampleOauth.callbackURL),
          (str "client_id", exampleOauth.clientID), (str "access_type", str "offline"),
          (str "response_type", str "code"), (str "prompt", str "consent"),
          (str "state", str "xyz123")],
        Values.index (ParseQuery rawQuery).1 p.1 = [p.2]) :=
  ⟨rfl, by decide!, by decide!,
    CreateOauthURL_keeps_decodable_parameters (exampleEnv (.error (.lib [])))
      { exampleOauth with
        oauthURL := str "https://idp.example/auth?hd=a.example&state=old&x=%zz&hd=b#top" }
      (str "xyz123")
      ⟨str "https://idp.example/auth", false, str "hd=a.example&state=old&x=%zz&hd=b",
        str "top"⟩ rfl⟩

/-- Counterexample to C2 as stated: the authorize URL
`https://idp.example/auth?b=1;c&ok=1` parses and its raw query `b=1;c&ok=1`
has the piece `b=1;c`, whose key `b` is none of the seven; the URL returned for
it keeps `ok=1` but has no value for `b`. -/
theorem dropped_parameter_counterexample :
    (exampleEnv (.error (.lib []))).urlParse (str "https://idp.example/auth?b=1;c&ok=1") =
      .ok ⟨str "https://idp.example/auth", false, str "b=1;c&ok=1", []⟩ ∧
    splitAmp (str "b=1;c&ok=1") = [str "b=1;c", str "ok=1"] ∧
    Cut (str "b=1;c") (ch '=') = (str "b", str "1;c", true) ∧
    str "b" ∉ [str "scope", str "redirect_uri", str "client_id", str "access_type",
      str "response_type", str "prompt", str "state"] ∧
    CreateOauthURL (exampleEnv (.error (.lib [])))
        { exampleOauth with oauthURL := str "https://idp.example/auth?b=1;c&ok=1" }
        (str "xyz123") =
      (str ("https://idp.example/auth?access_type=offline&client_id=cid&ok=1&prompt=consent"
        ++ "&redirect_uri=https%3A%2F%2Fapp.example%2Fcb&response_type=code"
        ++ "&scope=profile+email&state=xyz123"), none) ∧
    Values.index (ParseQuery (rawQueryOf (CreateOauthURL (exampleEnv (.error (.lib [])))
        { exampleOauth with oauthURL := str "https://idp.example/auth?b=1;c&ok=1" }
        (str "xyz123")).1)).1 (str "b") = [] ∧
    Values.index (ParseQuery (rawQueryOf (CreateOauthURL (exampleEnv (.error (.lib [])))
        { exampleOauth with oauthURL := str "https://idp.example/auth?b=1;c&ok=1" }
        (str "xyz123")).1)).1 (str "ok") = [str "1"] :=
  ⟨rfl, by decide!, by decide!, by decide!, by decide!, by decide!, by decide!⟩

/-! ## `fetchOauthToken` -/

theorem FetchAccessToken_eq (env : Env) (oauth : Oauth) (accessCode : GoString) :
    FetchAccessToken env oauth accessCode =
      fetchOauthToken env oauth.tokenURL
        (Values.Encode [(str "client_secret", [oauth.clientSecret]),
          (str "grant_type", [str "authorization_code"]),
          (str "redirect_uri", [oauth.callbackURL]), (str "client_id", [oauth.clientID]),
          (str "code_verifier", [str ""]), (str "code", [accessCode])])
        UserOauthToken.zero := by
  unfold FetchAccessToken
  simp only []
  generalize hr : fetchOauthToken env _ _ _ = r
  have hr2 : fetchOauthToken env oauth.tokenURL
      (Values.Encode [(str "client_secret", [oauth.clientSecret]),
        (str "grant_type", [str "authorization_code"]),
        (str "redirect_uri", [oauth.callbackURL]), (str "client_id", [oauth.clientID]),
        (str "code_verifier", [str ""]), (str "code", [accessCode])])
      UserOauthToken.zero = r := hr
  rw [hr2]
  obtain ⟨sent, out⟩ := r
  rcases out with ⟨tok, _ | e⟩ | msg <;> rfl

theorem RefreshAccessToken_eq (env : Env) (oauth : Oauth) (refreshToken : GoString) :
    RefreshAccessToken env oauth refreshToken =
      fetchOauthToken env oauth.tokenURL
        (Values.Encode [(str "client_secret", [oauth.clientSecret]),
          (str "refresh_token", [refreshToken]), (str "grant_type", [str "refresh_token"]),
          (str "client_id", [oauth.clientID])])
        UserOauthToken.zero := by
  unfold RefreshAccessToken
  simp only []
  generalize hr : fetchOauthToken env _ _ _ = r
  have hr2 : fetchOauthToken env oauth.tokenURL
      (Values.Encode [(str "client_secret", [oauth.clientSecret]),
        (str "refresh_token", [refreshToken]), (str "grant_type", [str "refresh_token"]),
        (str "client_id", [oauth.clientID])])
      UserOauthToken.zero = r := hr
  rw [hr2]
  obtain ⟨sent, out⟩ := r
  rcases out with ⟨tok, _ | e⟩ | msg <;> rfl

theorem fetchOauthToken_bad_url (env : Env) (url body : GoString) (tok : UserOauthToken)
    (err : GoError) (h : env.urlParse url = .error err) :
    fetchOauthToken env url body tok = ⟨[], .panic nilDereference⟩ := by
  simp [fetchOauthToken, NewRequest, h]

theorem fetchOauthToken_sent (env : Env) (url body : GoString) (tok : UserOauthToken) (u : URL)
    (h : env.urlParse url = .ok u) :
    (fetchOauthToken env url body tok).sent = [tokenRequest u body] := by
  have hreq : Request.mk (str "POST") u
      (Values.Set [] (str "Content-Type") (str "application/x-www-form-urlencoded")) body =
      tokenRequest u body := rfl
  simp only [fetchOauthToken, NewRequest, h, hreq]
  repeat' split
  all_goals rfl

theorem fetchOauthToken_out (env : Env) (url body : GoString) (tok : UserOauthToken) (u : URL)
    (resp : Response) (data : GoString) (h : env.urlParse url = .ok u)
    (hdo : ∀ r ∈ (fetchOauthToken env url body tok).sent, env.clientDo r = .ok resp)
    (hb : resp.Body = .ok data) :
    (fetchOauthToken env url body tok).out =
      if resp.StatusCode ≠ 200 then
        if resp.StatusCode = 400 then
          .ret (tok, some (.errorString
            (str "oauth: error fetching token, endpoint does not exist")))
        else
          match Unmarshal env BadRequest.setMember (str "struct") data
              ({ Error := [], Description := [] } : BadRequest) with
          | (_, some e) => .ret (tok, some e)
          | (badRequest, none) =>
            .ret (tok, some (.errorString
              (str "oauth: error fetching token " ++ badRequest.Error ++ str " "
                ++ badRequest.Description)))
      else .ret (Unmarshal env UserOauthToken.setMember (str "oauth2.UserOauthToken") data tok) := by
  have hreq : Request.mk (str "POST") u
      (Values.Set [] (str "Content-Type") (str "application/x-www-form-urlencoded")) body =
      tokenRequest u body := rfl
  have hdo2 : env.clientDo (tokenRequest u body) = .ok resp :=
    hdo _ (by rw [fetchOauthToken_sent env url body tok u h]; exact List.mem_singleton_self _)
  simp only [fetchOauthToken, NewRequest, h, hreq, hdo2, hb]
  by_cases h200 : resp.StatusCode = 200
  · simp only [h200, ne_eq, not_true_eq_false, if_false]
    split <;> simp_all
  · by_cases h400 : resp.StatusCode = 400
    · simp [h400]
    · simp only [h200, h400, ne_eq, not_false_eq_true, if_true, if_false]
      split <;> simp_all

/-- C4: when the token endpoint answers with status 400, `FetchAccessToken` and
`RefreshAccessToken` both fail with the error
`oauth: error fetching token, endpoint does not exist` and a zero token,
whatever the body that was read. -/
theorem status_400_fixed_error (env : Env) (oauth : Oauth) (accessCode refreshToken : GoString)
    (u : URL) (resp : Response) (data : GoString)
    (hurl : env.urlParse oauth.tokenURL = .ok u)
    (hfetch : ∀ r ∈ (FetchAccessToken env oauth accessCode).sent, env.clientDo r = .ok resp)
    (hrefresh : ∀ r ∈ (RefreshAccessToken env oauth refreshToken).sent,
      env.clientDo r = .ok resp)
    (hstatus : resp.StatusCode = 400) (hbody : resp.Body = .ok data) :
    (FetchAccessToken env oauth accessCode).out =
      .ret (UserOauthToken.zero, some (.errorString
        (str "oauth: error fetching token, endpoint does not exist"))) ∧
    (RefreshAccessToken env oauth refreshToken).out =
      .ret (UserOauthToken.zero, some (.errorString
        (str "oauth: error fetching token, endpoint does not exist"))) := by
  rw [FetchAccessToken_eq] at hfetch ⊢
  rw [RefreshAccessToken_eq] at hrefresh ⊢
  rw [fetchOauthToken_out env _ _ _ u resp data hurl hfetch hbody,
    fetchOauthToken_out env _ _ _ u resp data hurl hrefresh hbody]
  simp [hstatus]

/-- Witness of C4: status 400 with a body that is not JSON. -/
theorem status_400_fixed_error_witness :
    (FetchAccessToken (exampleEnv (.ok ⟨400, .ok (str "not found")⟩)) exampleOauth
        (str "code")).out =
      .ret (UserOauthToken.zero, some (.errorString
        (str "oauth: error fetching token, endpoint does not exist"))) ∧
    (RefreshAccessToken (exampleEnv (.ok ⟨400, .ok (str "not found")⟩)) exampleOauth
        (str "refresh")).out =
      .ret (UserOauthToken.zero, some (.errorString
        (str "oauth: error fetching token, endpoint does not exist"))) :=
  status_400_fixed_error (exampleEnv (.ok ⟨400, .ok (str "not found")⟩)) exampleOauth
    (str "code") (str "refresh") ⟨str "https://idp.example/token", false, [], []⟩
    ⟨400, .ok (str "not found")⟩ (str "not found") rfl (fun _ _ => rfl) (fun _ _ => rfl) rfl rfl

theorem decode_error_object (e d : GoString) :
    [(str "error", JSON.string e), (str "error_description", JSON.string d)].foldl
      BadRequest.setMember (⟨[], []⟩, none) = (⟨e, d⟩, none) := rfl

theorem lastErrorMember_append (f : BadRequestField) (l : List (GoString × JSON))
    (m : GoString × JSON) :
    lastErrorMember f (l ++ [m]) =
      if findField badRequestTags m.1 = some f then some m.2 else lastErrorMember f l := by
  unfold lastErrorMember
  rw [List.reverse_append]
  by_cases h : findField badRequestTags m.1 = some f <;> simp [List.find?_cons, h]

theorem foldl_BadRequest_setMember_valid (members : List (GoString × JSON))
    (h : members.all validErrorMember = true) :
    members.foldl BadRequest.setMember (⟨[], []⟩, none) = (badRequestOf members, none) := by
  induction members using List.reverseRecOn with
  | nil => rfl
  | append_singleton l m ih =>
    rw [List.all_append, Bool.and_eq_true] at h
    have hm : validErrorMember m = true := by simpa using h.2
    rw [List.foldl_append, ih h.1]
    simp only [List.foldl, badRequestOf, lastErrorMember_append]
    unfold validErrorMember at hm
    unfold BadRequest.setMember
    cases hf : findField badRequestTags m.1 with
    | none => simp
    | some f =>
      rw [hf] at hm
      cases f <;> cases hv : m.2 <;> rw [hv] at hm <;>
        simp_all [storeString, saveError, stringOf]

/-- C5, as the code has it: when the status is neither 200 nor 400 and the body
is a JSON object in which every member whose key selects `error` or
`error_description` (by the JSON name or by case folding) carries a string,
both operations fail with the zero token and the error
`oauth: error fetching token e d`, where `e` and `d` are the strings of the
last member selecting `error` and `error_description` (empty without one); the
message contains `e` and `d`. -/
theorem provider_error_from_selecting_members (env : Env) (oauth : Oauth)
    (accessCode refreshToken : GoString) (u : URL) (resp : Response) (data : GoString)
    (members : List (GoString × JSON))
    (hurl : env.urlParse oauth.tokenURL = .ok u)
    (hfetch : ∀ r ∈ (FetchAccessToken env oauth accessCode).sent, env.clientDo r = .ok resp)
    (hrefresh : ∀ r ∈ (RefreshAccessToken env oauth refreshToken).sent,
      env.clientDo r = .ok resp)
    (h200 : resp.StatusCode ≠ 200) (h400 : resp.StatusCode ≠ 400) (hbody : resp.Body = .ok data)
    (hjson : env.jsonParse data = some (.object members))
    (hvalid : members.all validErrorMember = true) :
    (FetchAccessToken env oauth accessCode).out =
      .ret (UserOauthToken.zero, some (.errorString
        (str "oauth: error fetching token " ++ stringOf (lastErrorMember .Error members)
          ++ str " " ++ stringOf (lastErrorMember .Description members)))) ∧
    (RefreshAccessToken env oauth refreshToken).out =
      .ret (UserOauthToken.zero, some (.errorString
        (str "oauth: error fetching token " ++ stringOf (lastErrorMember .Error members)
          ++ str " " ++ stringOf (lastErrorMember .Description members)))) ∧
    stringOf (lastErrorMember .Error members) <:+:
      str "oauth: error fetching token " ++ stringOf (lastErrorMember .Error members)
        ++ str " " ++ stringOf (lastErrorMember .Description members) ∧
    stringOf (lastErrorMember .Description members) <:+:
      str "oauth: error fetching token " ++ stringOf (lastErrorMember .Error members)
        ++ str " " ++ stringOf (lastErrorMember .Description members) := by
  have hun : Unmarshal env BadRequest.setMember (str "struct") data
      ({ Error := [], Description := [] } : BadRequest) = (badRequestOf members, none) := by
    simp only [Unmarshal, hjson]
    exact foldl_BadRequest_setMember_valid members hvalid
  rw [FetchAccessToken_eq] at hfetch ⊢
  rw [RefreshAccessToken_eq] at hrefresh ⊢
  rw [fetchOauthToken_out env _ _ _ u resp data hurl hfetch hbody,
    fetchOauthToken_out env _ _ _ u resp data hurl hrefresh hbody]
  refine ⟨by simp [h200, h400, hun, badRequestOf], by simp [h200, h400, hun, badRequestOf],
    ?_, ?_⟩
  · exact ⟨str "oauth: error fetching token ",
      str " " ++ stringOf (lastErrorMember .Description members), by simp⟩
  · exact ⟨str "oauth: error fetching token " ++ stringOf (lastErrorMember .Error members)
      ++ str " ", [], by simp⟩

/-- C6: when the status is not 400 and the body is not valid JSON, both
operations fail with the JSON syntax error and a zero token; in particular they
do not succeed on status 200 and do not build a provider error message on
another status. -/
theorem malformed_body_decode_error (env : Env) (oauth : Oauth)
    (accessCode refreshToken : GoString) (u : URL) (resp : Response) (data : GoString)
    (hurl : env.urlParse oauth.tokenURL = .ok u)
    (hfetch : ∀ r ∈ (FetchAccessToken env oauth accessCode).sent, env.clientDo r = .ok resp)
    (hrefresh : ∀ r ∈ (RefreshAccessToken env oauth refreshToken).sent,
      env.clientDo r = .ok resp)
    (h400 : resp.StatusCode ≠ 400) (hbody : resp.Body = .ok data)
    (hjson : env.jsonParse data = none) :
    (FetchAccessToken env oauth accessCode).out =
      .ret (UserOauthToken.zero, some .jsonSyntax) ∧
    (RefreshAccessToken env oauth refreshToken).out =
      .ret (UserOauthToken.zero, some .jsonSyntax) := by
  rw [FetchAccessToken_eq] at hfetch ⊢
  rw [RefreshAccessToken_eq] at hrefresh ⊢
  rw [fetchOauthToken_out env _ _ _ u resp data hurl hfetch hbody,
    fetchOauthToken_out env _ _ _ u resp data hurl hrefresh hbody]
  by_cases h200 : resp.StatusCode = 200 <;> simp [h200, h400, Unmarshal, hjson]

/-- Witness of C5, the example of the specification: status 500 with the body
`\x7b"error":"server_error","error_description":"boom"\x7d` gives the message
`oauth: error fetching token server_error boom`. -/
theorem provider_error_from_selecting_members_witness :
    stringOf (lastErrorMember .Error [(str "error", .string (str "server_error")),
      (str "error_description", .string (str "boom"))]) = str "server_error" ∧
    stringOf (lastErrorMember .Description [(str "error", .string (str "server_error")),
      (str "error_description", .string (str "boom"))]) = str "boom" ∧
    (FetchAccessToken (exampleEnv (.ok ⟨500, .ok
        (str "\x7b\"error\":\"server_error\",\"error_description\":\"boom\"\x7d")⟩))
        exampleOauth (str "code")).out =
      .ret (UserOauthToken.zero, some (.errorString
        (str "oauth: error fetching token server_error boom"))) ∧
    ((FetchAccessToken (exampleEnv (.ok ⟨500, .ok
        (str "\x7b\"error\":\"server_error\",\"error_description\":\"boom\"\x7d")⟩))
        exampleOauth (str "code")).out =
      .ret (UserOauthToken.zero, some (.errorString
        (str "oauth: error fetching token "
          ++ stringOf (lastErrorMember .Error [(str "error", .string (str "server_error")),
            (str "error_description", .string (str "boom"))])
          ++ str " "
          ++ stringOf (lastErrorMember .Description
            [(str "error", .string (str "server_error")),
              (str "error_description", .string (str "boom"))])))) ∧
    (RefreshAccessToken (exampleEnv (.ok ⟨500, .ok
        (str "\x7b\"error\":\"server_error\",\"error_description\":\"boom\"\x7d")⟩))
        exampleOauth (str "refresh")).out =
      .ret (UserOauthToken.zero, some (.errorString
        (str "oauth: error fetching token "
          ++ stringOf (lastErrorMember .Error [(str "error", .string (str "server_error")),
            (str "error_description", .string (str "boom"))])
          ++ str " "
          ++ stringOf (lastErrorMember .Description
            [(str "error", .string (str "server_error")),
              (str "error_description", .string (str "boom"))])))) ∧
    stringOf (lastErrorMember .Error [(str "error", .string (str "server_error")),
        (str "error_description", .string (str "boom"))]) <:+:
      str "oauth: error fetching token "
        ++ stringOf (lastErrorMember .Error [(str "error", .string (str "server_error")),
          (str "error_description", .string (str "boom"))])
        ++ str " "
        ++ stringOf (lastErrorMember .Description
          [(str "error", .string (str "server_error")),
            (str "error_description", .string (str "boom"))]) ∧
    stringOf (lastErrorMember .Description [(str "error", .string (str "server_error")),
        (str "error_description", .string (str "boom"))]) <:+:
      str "oauth: error fetching token "
        ++ stringOf (lastErrorMember .Error [(str "error", .string (str "server_error")),
          (str "error_description", .string (str "boom"))])
        ++ str " "
        ++ stringOf (lastErrorMember .Description
          [(str "error", .string (str "server_error")),
            (str "error_description", .string (str "boom"))])) :=
  ⟨by decide, by decide, rfl,
    provider_error_from_selecting_members
      (exampleEnv (.ok ⟨500, .ok
        (str "\x7b\"error\":\"server_error\",\"error_description\":\"boom\"\x7d")⟩))
      exampleOauth (str "code") (str "refresh") ⟨str "https://idp.example/token", false, [], []⟩
      ⟨500, .ok (str "\x7b\"error\":\"server_error\",\"error_description\":\"boom\"\x7d")⟩
      (str "\x7b\"error\":\"server_error\",\"error_description\":\"boom\"\x7d")
      [(str "error", .string (str "server_error")),
        (str "error_description", .string (str "boom"))]
      rfl (fun _ _ => rfl) (fun _ _ => rfl) (by decide) (by decide) rfl rfl (by decide)⟩

/-- Counterexample to C5 as stated: with status 500 and the body
`\x7b"error":"xyz","ERROR":"b","error_description":"d"\x7d` the value of the key
`error` is `xyz` and `ERROR` is another key, yet both operations fail with the
message `oauth: error fetching token b d`, which does not contain `xyz`. -/
theorem provider_error_exact_keys_counterexample :
    exampleJSON (str "\x7b\"error\":\"xyz\",\"ERROR\":\"b\",\"error_description\":\"d\"\x7d") =
      some (.object [(str "error", .string (str "xyz")), (str "ERROR", .string (str "b")),
        (str "error_description", .string (str "d"))]) ∧
    str "ERROR" ∉ badRequestTags.map Prod.snd ∧
    (FetchAccessToken (exampleEnv (.ok ⟨500, .ok
        (str "\x7b\"error\":\"xyz\",\"ERROR\":\"b\",\"error_description\":\"d\"\x7d")⟩))
        exampleOauth (str "code")).out =
      .ret (UserOauthToken.zero, some (.errorString
        (str "oauth: error fetching token b d"))) ∧
    (RefreshAccessToken (exampleEnv (.ok ⟨500, .ok
        (str "\x7b\"error\":\"xyz\",\"ERROR\":\"b\",\"error_description\":\"d\"\x7d")⟩))
        exampleOauth (str "refresh")).out =
      .ret (UserOauthToken.zero, some (.errorString
        (str "oauth: error fetching token b d"))) ∧
    str "oauth: error fetching token b d" ≠ str "oauth: error fetching token xyz d" ∧
    ¬ (str "xyz" <:+: str "oauth: error fetching token b d") :=
  ⟨rfl, by decide, rfl, rfl, by decide, by decide!⟩

/-- Witness of C6: status 200 with the malformed body `\x7boops`. -/
theorem malformed_body_decode_error_witness :
    (FetchAccessToken (exampleEnv (.ok ⟨200, .ok (str "\x7boops")⟩)) exampleOauth
        (str "code")).out = .ret (UserOauthToken.zero, some .jsonSyntax) ∧
    (RefreshAccessToken (exampleEnv (.ok ⟨200, .ok (str "\x7boops")⟩)) exampleOauth
        (str "refresh")).out = .ret (UserOauthToken.zero, some .jsonSyntax) :=
  malformed_body_decode_error (exampleEnv (.ok ⟨200, .ok (str "\x7boops")⟩)) exampleOauth
    (str "code") (str "refresh") ⟨str "https://idp.example/token", false, [], []⟩
    ⟨200, .ok (str "\x7boops")⟩ (str "\x7boops") rfl (fun _ _ => rfl) (fun _ _ => rfl)
    (by decide) rfl rfl

/-- C8: when the token URL does not parse, `http.NewRequest` returns a nil
request and `fetchOauthToken` panics on `request.Header` before it looks at the
error, so `FetchAccessToken` and `RefreshAccessToken` panic, send nothing and
return no error value. -/
theorem bad_token_url_panics (env : Env) (oauth : Oauth) (accessCode refreshToken : GoString)
    (err : GoError) (hurl : env.urlParse oauth.tokenURL = .error err) :
    FetchAccessToken env oauth accessCode = ⟨[], .panic nilDereference⟩ ∧
    RefreshAccessToken env oauth refreshToken = ⟨[], .panic nilDereference⟩ := by
  rw [FetchAccessToken_eq, RefreshAccessToken_eq]
  exact ⟨fetchOauthToken_bad_url env _ _ _ err hurl, fetchOauthToken_bad_url env _ _ _ err hurl⟩

/-- Witness of C8: the token URL `:` has no scheme before the colon. -/
theorem bad_token_url_panics_witness :
    (exampleEnv (.error (.lib []))).urlParse (str ":") =
      .error (.lib (str "missing protocol scheme")) ∧
    FetchAccessToken (exampleEnv (.error (.lib []))) { exampleOauth with tokenURL := str ":" }
      (str "code") = ⟨[], .panic nilDereference⟩ ∧
    RefreshAccessToken (exampleEnv (.error (.lib []))) { exampleOauth with tokenURL := str ":" }
      (str "refresh") = ⟨[], .panic nilDereference⟩ :=
  ⟨rfl, bad_token_url_panics (exampleEnv (.error (.lib [])))
    { exampleOauth with tokenURL := str ":" } (str "code") (str "refresh")
    (.lib (str "missing protocol scheme")) rfl⟩

/-- C9: when the token URL parses, `FetchAccessToken` hands exactly one request
to the HTTP client, a POST to the parsed token URL with the form content type,
whose body decodes without error to exactly the six keys `client_secret`,
`grant_type` (`authorization_code`), `redirect_uri`, `client_id`,
`code_verifier` (empty) and `code` (the input, verbatim), one value each. -/
theorem FetchAccessToken_form_body (env : Env) (oauth : Oauth) (accessCode : GoString) (u : URL)
    (hurl : env.urlParse oauth.tokenURL = .ok u) :
    ∃ body : GoString,
      (FetchAccessToken env oauth accessCode).sent =
        [⟨str "POST", u, [(str "Content-Type", [str "application/x-www-form-urlencoded"])],
          body⟩] ∧
      (ParseQuery body).2 = none ∧
      ∀ key, Values.index (ParseQuery body).1 key =
        Values.index [(str "client_secret", [oauth.clientSecret]),
          (str "grant_type", [str "authorization_code"]),
          (str "redirect_uri", [oauth.callbackURL]), (str "client_id", [oauth.clientID]),
          (str "code_verifier", [str ""]), (str "code", [accessCode])] key := by
  refine ⟨_, ?_, ParseQuery_Encode_error _, fun key => index_ParseQuery_Encode _ ?_ key⟩
  · rw [FetchAccessToken_eq, fetchOauthToken_sent env _ _ _ u hurl]
    rfl
  · unfold Values.WF
    simp only [List.map_cons, List.map_nil]
    decide

/-- Witness of C9: the example client exchanging the code `4/abc def`. -/
theorem FetchAccessToken_form_body_witness :
    (FetchAccessToken (exampleEnv (.error (.lib []))) exampleOauth (str "4/abc def")).sent =
      [⟨str "POST", ⟨str "https://idp.example/token", false, [], []⟩,
        [(str "Content-Type", [str "application/x-www-form-urlencoded"])],
        str ("client_id=cid&client_secret=secret&code=4%2Fabc+def&code_verifier="
          ++ "&grant_type=authorization_code&redirect_uri=https%3A%2F%2Fapp.example%2Fcb")⟩] ∧
    ∃ body : GoString,
      (FetchAccessToken (exampleEnv (.error (.lib []))) exampleOauth (str "4/abc def")).sent =
        [⟨str "POST", ⟨str "https://idp.example/token", false, [], []⟩,
          [(str "Content-Type", [str "application/x-www-form-urlencoded"])], body⟩] ∧
      (ParseQuery body).2 = none ∧
      ∀ key, Values.index (ParseQuery body).1 key =
        Values.index [(str "client_secret", [exampleOauth.clientSecret]),
          (str "grant_type", [str "authorization_code"]),
          (str "redirect_uri", [exampleOauth.callbackURL]),
          (str "client_id", [exampleOauth.clientID]),
          (str "code_verifier", [str ""]), (str "code", [str "4/abc def"])] key :=
  ⟨by decide!, FetchAccessToken_form_body (exampleEnv (.error (.lib []))) exampleOauth
    (str "4/abc def") ⟨str "https://idp.example/token", false, [], []⟩ rfl⟩

/-- C10: when the token URL parses, `RefreshAccessToken` hands exactly one
request to the HTTP client, a POST to the parsed token URL with the form
content type, whose body decodes without error to exactly the four keys
`client_secret`, `refresh_token` (the input, verbatim), `grant_type`
(`refresh_token`) and `client_id`, one value each; `redirect_uri`, `code` and
`code_verifier` have no value. -/
theorem RefreshAccessToken_form_body (env : Env) (oauth : Oauth) (refreshToken : GoString)
    (u : URL) (hurl : env.urlParse oauth.tokenURL = .ok u) :
    ∃ body : GoString,
      (RefreshAccessToken env oauth refreshToken).sent =
        [⟨str "POST", u, [(str "Content-Type", [str "application/x-www-form-urlencoded"])],
          body⟩] ∧
      (ParseQuery body).2 = none ∧
      (∀ key, Values.index (ParseQuery body).1 key =
        Values.index [(str "client_secret", [oauth.clientSecret]),
          (str "refresh_token", [refreshToken]), (str "grant_type", [str "refresh_token"]),
          (str "client_id", [oauth.clientID])] key) ∧
      Values.index (ParseQuery body).1 (str "redirect_uri") = [] ∧
      Values.index (ParseQuery body).1 (str "code") = [] ∧
      Values.index (ParseQuery body).1 (str "code_verifier") = [] := by
  have hwf : Values.WF [(str "client_secret", [oauth.clientSecret]),
      (str "refresh_token", [refreshToken]), (str "grant_type", [str "refresh_token"]),
      (str "client_id", [oauth.clientID])] := by
    unfold Values.WF
    simp only [List.map_cons, List.map_nil]
    decide
  refine ⟨_, ?_, ParseQuery_Encode_error _, fun key => index_ParseQuery_Encode _ hwf key,
    (index_ParseQuery_Encode _ hwf _).trans rfl, (index_ParseQuery_Encode _ hwf _).trans rfl,
    (index_ParseQuery_Encode _ hwf _).trans rfl⟩
  rw [RefreshAccessToken_eq, fetchOauthToken_sent env _ _ _ u hurl]
  rfl

/-- Witness of C10: the example client refreshing with the token `1//r&t`. -/
theorem RefreshAccessToken_form_body_witness :
    (RefreshAccessToken (exampleEnv (.error (.lib []))) exampleOauth (str "1//r&t")).sent =
      [⟨str "POST", ⟨str "https://idp.example/token", false, [], []⟩,
        [(str "Content-Type", [str "application/x-www-form-urlencoded"])],
        str ("client_id=cid&client_secret=secret&grant_type=refresh_token"
          ++ "&refresh_token=1%2F%2Fr%26t")⟩] ∧
    ∃ body : GoString,
      (RefreshAccessToken (exampleEnv (.error (.lib []))) exampleOauth (str "1//r&t")).sent =
        [⟨str "POST", ⟨str "https://idp.example/token", false, [], []⟩,
          [(str "Content-Type", [str "application/x-www-form-urlencoded"])], body⟩] ∧
      (ParseQuery body).2 = none ∧
      (∀ key, Values.index (ParseQuery body).1 key =
        Values.index [(str "client_secret", [exampleOauth.clientSecret]),
          (str "refresh_token", [str "1//r&t"]), (str "grant_type", [str "refresh_token"]),
          (str "client_id", [exampleOauth.clientID])] key) ∧
      Values.index (ParseQuery body).1 (str "redirect_uri") = [] ∧
      Values.index (ParseQuery body).1 (str "code") = [] ∧
      Values.index (ParseQuery body).1 (str "code_verifier") = [] :=
  ⟨by decide!, RefreshAccessToken_form_body (exampleEnv (.error (.lib []))) exampleOauth
    (str "1//r&t") ⟨str "https://idp.example/token", false, [], []⟩ rfl⟩

/-! ## Decoding the token -/

theorem lastMember_append (f : TokenField) (l : List (GoString × JSON)) (m : GoString × JSON) :
    lastMember f (l ++ [m]) =
      if findField tokenTags m.1 = some f then some m.2 else lastMember f l := by
  unfold lastMember
  rw [List.reverse_append]
  by_cases h : findField tokenTags m.1 = some f <;> simp [List.find?_cons, h]

theorem foldl_setMember_valid (members : List (GoString × JSON))
    (h : members.all validMember = true) :
    members.foldl UserOauthToken.setMember (UserOauthToken.zero, none) =
      (tokenOf members, none) := by
  induction members using List.reverseRecOn with
  | nil => rfl
  | append_singleton l m ih =>
    rw [List.all_append, Bool.and_eq_true] at h
    have hm : validMember m = true := by simpa using h.2
    rw [List.foldl_append, ih h.1]
    simp only [List.foldl, tokenOf, lastMember_append]
    unfold validMember at hm
    unfold UserOauthToken.setMember
    cases hf : findField tokenTags m.1 with
    | none => simp
    | some f =>
      rw [hf] at hm
      cases f <;> cases hv : m.2 <;> rw [hv] at hm <;>
        simp_all [storeString, storeInt, saveError, stringOf, intOf]
      cases hp : ParseInt _ <;> simp_all

/-- C3, as the code has it: when the status is 200 and the body is a JSON
object in which every member whose key selects a token field (by its JSON name
or by case folding) carries a value of the type of the field, both operations
return no error and the token in which every field has the value of the last
member selecting it; members selecting no field are ignored, and a field that
no member selects is empty or zero. -/
theorem token_fields_from_selecting_members (env : Env) (oauth : Oauth)
    (accessCode refreshToken : GoString) (u : URL) (resp : Response) (data : GoString)
    (members : List (GoString × JSON))
    (hurl : env.urlParse oauth.tokenURL = .ok u)
    (hfetch : ∀ r ∈ (FetchAccessToken env oauth accessCode).sent, env.clientDo r = .ok resp)
    (hrefresh : ∀ r ∈ (RefreshAccessToken env oauth refreshToken).sent,
      env.clientDo r = .ok resp)
    (hstatus : resp.StatusCode = 200) (hbody : resp.Body = .ok data)
    (hjson : env.jsonParse data = some (.object members))
    (hvalid : members.all validMember = true) :
    (FetchAccessToken env oauth accessCode).out = .ret (tokenOf members, none) ∧
    (RefreshAccessToken env oauth refreshToken).out = .ret (tokenOf members, none) := by
  have hun : Unmarshal env UserOauthToken.setMember (str "oauth2.UserOauthToken") data
      UserOauthToken.zero = (tokenOf members, none) := by
    simp only [Unmarshal, hjson]
    exact foldl_setMember_valid members hvalid
  rw [FetchAccessToken_eq] at hfetch ⊢
  rw [RefreshAccessToken_eq] at hrefresh ⊢
  rw [fetchOauthToken_out env _ _ _ u resp data hurl hfetch hbody,
    fetchOauthToken_out env _ _ _ u resp data hurl hrefresh hbody]
  simp [hstatus, hun]

/-- Witness of C3: the body
`\x7b"access_token":"abc","Expires_In":3600,"extra":true\x7d` gives the access
token `abc` and the expiry 3600; `extra` is ignored and the other fields are
empty. -/
theorem token_fields_from_selecting_members_witness :
    tokenOf [(str "access_token", .string (str "abc")),
        (str "Expires_In", .number (str "3600")), (str "extra", .bool true)] =
      { IDToken := [], ExpiresAt := 3600, TokenType := [], AccessToken := str "abc",
        RefreshToken := [] } ∧
    (FetchAccessToken (exampleEnv (.ok ⟨200, .ok
        (str "\x7b\"access_token\":\"abc\",\"Expires_In\":3600,\"extra\":true\x7d")⟩))
        exampleOauth (str "code")).out =
      .ret (tokenOf [(str "access_token", .string (str "abc")),
        (str "Expires_In", .number (str "3600")), (str "extra", .bool true)], none) ∧
    (RefreshAccessToken (exampleEnv (.ok ⟨200, .ok
        (str "\x7b\"access_token\":\"abc\",\"Expires_In\":3600,\"extra\":true\x7d")⟩))
        exampleOauth (str "refresh")).out =
      .ret (tokenOf [(str "access_token", .string (str "abc")),
        (str "Expires_In", .number (str "3600")), (str "extra", .bool true)], none) :=
  ⟨by decide, token_fields_from_selecting_members
    (exampleEnv (.ok ⟨200, .ok
      (str "\x7b\"access_token\":\"abc\",\"Expires_In\":3600,\"extra\":true\x7d")⟩))
    exampleOauth (str "code") (str "refresh") ⟨str "https://idp.example/token", false, [], []⟩
    ⟨200, .ok (str "\x7b\"access_token\":\"abc\",\"Expires_In\":3600,\"extra\":true\x7d")⟩
    (str "\x7b\"access_token\":\"abc\",\"Expires_In\":3600,\"extra\":true\x7d")
    [(str "access_token", .string (str "abc")), (str "Expires_In", .number (str "3600")),
      (str "extra", .bool true)]
    rfl (fun _ _ => rfl) (fun _ _ => rfl) rfl rfl rfl (by decide)⟩

/-- Counterexample to C3 as stated: with status 200 and the body
`\x7b"access_token":"a","ACCESS_TOKEN":"b"\x7d` the value of the key
`access_token` is `a` and `ACCESS_TOKEN` is another key, yet both operations
return the token whose `AccessToken` is `b`: the other key is not ignored. -/
theorem token_exact_keys_counterexample :
    exampleJSON (str "\x7b\"access_token\":\"a\",\"ACCESS_TOKEN\":\"b\"\x7d") =
      some (.object [(str "access_token", .string (str "a")),
        (str "ACCESS_TOKEN", .string (str "b"))]) ∧
    str "ACCESS_TOKEN" ∉ tokenTags.map Prod.snd ∧
    (FetchAccessToken (exampleEnv (.ok ⟨200, .ok
        (str "\x7b\"access_token\":\"a\",\"ACCESS_TOKEN\":\"b\"\x7d")⟩))
        exampleOauth (str "code")).out =
      .ret ({ UserOauthToken.zero with AccessToken := str "b" }, none) ∧
    (RefreshAccessToken (exampleEnv (.ok ⟨200, .ok
        (str "\x7b\"access_token\":\"a\",\"ACCESS_TOKEN\":\"b\"\x7d")⟩))
        exampleOauth (str "refresh")).out =
      .ret ({ UserOauthToken.zero with AccessToken := str "b" }, none) ∧
    ({ UserOauthToken.zero with AccessToken := str "b" } : UserOauthToken).AccessToken ≠ str "a" :=
  ⟨rfl, by decide, rfl, rfl, by decide⟩

/-! ## Tokens returned with an error -/

theorem storeString_error (field cur : GoString) (v : JSON) :
    (storeString field cur v).2 = none ∨
      ∃ value f, (storeString field cur v).2 = some (.jsonUnmarshalType value f) := by
  cases v <;> simp [storeString]

theorem storeInt_error (field : GoString) (cur : Int) (v : JSON) :
    (storeInt field cur v).2 = none ∨
      ∃ value f, (storeInt field cur v).2 = some (.jsonUnmarshalType value f) := by
  cases v <;> simp [storeInt]
  split <;> simp

theorem saveError_kind (saved err : Option GoError)
    (h1 : saved = none ∨ ∃ value f, saved = some (.jsonUnmarshalType value f))
    (h2 : err = none ∨ ∃ value f, err = some (.jsonUnmarshalType value f)) :
    saveError saved err = none ∨
      ∃ value f, saveError saved err = some (.jsonUnmarshalType value f) := by
  cases saved with
  | none => exact h2
  | some e => exact h1

theorem setMember_error (st : UserOauthToken × Option GoError) (m : GoString × JSON)
    (h : st.2 = none ∨ ∃ value f, st.2 = some (.jsonUnmarshalType value f)) :
    (UserOauthToken.setMember st m).2 = none ∨
      ∃ value f, (UserOauthToken.setMember st m).2 = some (.jsonUnmarshalType value f) := by
  unfold UserOauthToken.setMember
  split
  · exact h
  · exact saveError_kind _ _ h (storeString_error _ _ _)
  · exact saveError_kind _ _ h (storeInt_error _ _ _)
  · exact saveError_kind _ _ h (storeString_error _ _ _)
  · exact saveError_kind _ _ h (storeString_error _ _ _)
  · exact saveError_kind _ _ h (storeString_error _ _ _)

theorem foldl_setMember_error (members : List (GoString × JSON))
    (st : UserOauthToken × Option GoError)
    (h : st.2 = none ∨ ∃ value f, st.2 = some (.jsonUnmarshalType value f)) :
    (members.foldl UserOauthToken.setMember st).2 = none ∨
      ∃ value f, (members.foldl UserOauthToken.setMember st).2 =
        some (.jsonUnmarshalType value f) := by
  induction members generalizing st with
  | nil => exact h
  | cons m rest ih => exact ih _ (setMember_error st m h)

theorem fetchOauthToken_error_token (env : Env) (url body : GoString)
    (tok0 tok : UserOauthToken) (err : GoError)
    (h : (fetchOauthToken env url body tok0).out = .ret (tok, some err)) :
    tok = tok0 ∨
      ∃ r resp data members value f,
        r ∈ (fetchOauthToken env url body tok0).sent ∧ env.clientDo r = .ok resp ∧
        resp.StatusCode = 200 ∧ resp.Body = .ok data ∧
        env.jsonParse data = some (.object members) ∧
        err = .jsonUnmarshalType value f ∧
        members.foldl UserOauthToken.setMember (tok0, none) = (tok, some err) := by
  cases hp : env.urlParse url with
  | error e =>
    rw [fetchOauthToken_bad_url env url body tok0 e hp] at h
    cases h
  | ok u =>
    have hsent := fetchOauthToken_sent env url body tok0 u hp
    have hreq : Request.mk (str "POST") u
        (Values.Set [] (str "Content-Type") (str "application/x-www-form-urlencoded")) body =
        tokenRequest u body := rfl
    cases hd : env.clientDo (tokenRequest u body) with
    | error e =>
      simp only [fetchOauthToken, NewRequest, hp, hreq, hd] at h
      cases h
      exact Or.inl rfl
    | ok resp =>
      cases hb : resp.Body with
      | error e =>
        simp only [fetchOauthToken, NewRequest, hp, hreq, hd, hb] at h
        cases h
        exact Or.inl rfl
      | ok data =>
        have hdo : ∀ r ∈ (fetchOauthToken env url body tok0).sent, env.clientDo r = .ok resp := by
          intro r hr
          rw [hsent, List.mem_singleton] at hr
          rw [hr, hd]
        rw [fetchOauthToken_out env url body tok0 u resp data hp hdo hb] at h
        by_cases h200 : resp.StatusCode = 200
        · simp only [h200, ne_eq, not_true_eq_false, if_false, Outcome.ret.injEq] at h
          unfold Unmarshal at h
          cases hj : env.jsonParse data with
          | none =>
            rw [hj] at h
            simp only [Prod.mk.injEq] at h
            exact Or.inl h.1.symm
          | some j =>
            rw [hj] at h
            cases j with
            | object members =>
              simp only [] at h
              right
              have hk := foldl_setMember_error members (tok0, none) (Or.inl rfl)
              rw [h] at hk
              rcases hk with hk | ⟨value, f, hk⟩
              · cases hk
              · simp only [Option.some.injEq] at hk
                exact ⟨tokenRequest u body, resp, data, members, value, f,
                  by rw [hsent]; exact List.mem_singleton_self _, hd, h200, hb, hj, hk, h⟩
            | null =>
              simp only [Prod.mk.injEq] at h
              exact absurd h.2 (by simp)
            | bool b =>
              simp only [Prod.mk.injEq] at h
              exact Or.inl h.1.symm
            | number lit =>
              simp only [Prod.mk.injEq] at h
              exact Or.inl h.1.symm
            | string x =>
              simp only [Prod.mk.injEq] at h
              exact Or.inl h.1.symm
            | array xs =>
              simp only [Prod.mk.injEq] at h
              exact Or.inl h.1.symm
        · by_cases h400 : resp.StatusCode = 400
          · simp only [h400, ne_eq, if_true, Outcome.ret.injEq, Prod.mk.injEq] at h
            simp at h
            exact Or.inl h.1.symm
          · simp only [h200, h400, ne_eq, not_false_eq_true, if_true, if_false] at h
            split at h
            · simp only [Outcome.ret.injEq, Prod.mk.injEq] at h
              exact Or.inl h.1.symm
            · simp only [Outcome.ret.injEq, Prod.mk.injEq] at h
              exact Or.inl h.1.symm

/-- C7, as the code has it: when `FetchAccessToken` or `RefreshAccessToken`
returns an error, the token returned with it is the zero token, except when the
response had status 200, its body was a JSON object and the error is the type
mismatch reported by decoding it: then the token is the one the decoder left
behind. When `CreateOauthURL` returns an error, the returned URL is empty. -/
theorem error_token_zero_unless_type_mismatch (env : Env) (oauth : Oauth)
    (accessCode refreshToken state : GoString) :
    (∀ tok err, (FetchAccessToken env oauth accessCode).out = .ret (tok, some err) →
      tok = UserOauthToken.zero ∨
      ∃ r resp data members value f,
        r ∈ (FetchAccessToken env oauth accessCode).sent ∧ env.clientDo r = .ok resp ∧
        resp.StatusCode = 200 ∧ resp.Body = .ok data ∧
        env.jsonParse data = some (.object members) ∧
        err = .jsonUnmarshalType value f ∧
        members.foldl UserOauthToken.setMember (UserOauthToken.zero, none) = (tok, some err)) ∧
    (∀ tok err, (RefreshAccessToken env oauth refreshToken).out = .ret (tok, some err) →
      tok = UserOauthToken.zero ∨
      ∃ r resp data members value f,
        r ∈ (RefreshAccessToken env oauth refreshToken).sent ∧ env.clientDo r = .ok resp ∧
        resp.StatusCode = 200 ∧ resp.Body = .ok data ∧
        env.jsonParse data = some (.object members) ∧
        err = .jsonUnmarshalType value f ∧
        members.foldl UserOauthToken.setMember (UserOauthToken.zero, none) = (tok, some err)) ∧
    (∀ url err, CreateOauthURL env oauth state = (url, some err) → url = []) := by
  refine ⟨?_, ?_, ?_⟩
  · intro tok err h
    rw [FetchAccessToken_eq] at h ⊢
    exact fetchOauthToken_error_token env _ _ _ tok err h
  · intro tok err h
    rw [RefreshAccessToken_eq] at h ⊢
    exact fetchOauthToken_error_token env _ _ _ tok err h
  · intro url err h
    unfold CreateOauthURL at h
    split at h
    · simp only [Prod.mk.injEq] at h
      exact h.1.symm
    · simp only [Prod.mk.injEq] at h
      exact absurd h.2 (by simp)

/-- Witness of C7: a response with status 400 makes both operations return an
error with the zero token, and an authorize URL without a scheme makes
`CreateOauthURL` return an error with the empty URL. -/
theorem error_token_zero_unless_type_mismatch_witness :
    (FetchAccessToken (exampleEnv (.ok ⟨400, .ok []⟩)) exampleOauth (str "code")).out =
      .ret (UserOauthToken.zero, some (.errorString
        (str "oauth: error fetching token, endpoint does not exist"))) ∧
    CreateOauthURL (exampleEnv (.ok ⟨400, .ok []⟩)) { exampleOauth with oauthURL := str ":" }
      (str "xyz123") = ([], some (.lib (str "missing protocol scheme"))) ∧
    ([] : GoString) = [] :=
  ⟨rfl, rfl,
    (error_token_zero_unless_type_mismatch (exampleEnv (.ok ⟨400, .ok []⟩))
      { exampleOauth with oauthURL := str ":" } (str "code") (str "refresh")
      (str "xyz123")).2.2 [] (.lib (str "missing protocol scheme")) rfl⟩

/-- Counterexample to C7 as stated: with status 200 and the body
`\x7b"access_token":"abc","expires_in":"soon"\x7d` both operations return a type
mismatch error together with a token whose `AccessToken` is `abc`. -/
theorem partial_token_counterexample :
    (FetchAccessToken (exampleEnv (.ok ⟨200, .ok
        (str "\x7b\"access_token\":\"abc\",\"expires_in\":\"soon\"\x7d")⟩))
        exampleOauth (str "code")).out =
      .ret ({ UserOauthToken.zero with AccessToken := str "abc" },
        some (.jsonUnmarshalType (str "string") (str "ExpiresAt"))) ∧
    (RefreshAccessToken (exampleEnv (.ok ⟨200, .ok
        (str "\x7b\"access_token\":\"abc\",\"expires_in\":\"soon\"\x7d")⟩))
        exampleOauth (str "refresh")).out =
      .ret ({ UserOauthToken.zero with AccessToken := str "abc" },
        some (.jsonUnmarshalType (str "string") (str "ExpiresAt"))) ∧
    ({ UserOauthToken.zero with AccessToken := str "abc" } : UserOauthToken).AccessToken ≠ [] :=
  ⟨rfl, rfl, by decide⟩

end Oauth2
